import Mathlib

/-!
A shallow embedding of the cgreen test runner core (src/runner.c) together
with the breadcrumb stack exercised by tests/breadcrumb_tests.c.

The runner is modelled as explicit state passing over a reporter state that
records the two counters (failures, exceptions) and a trace of the events the
engine sends to its collaborators (reporter callbacks, hook invocations, mock
bookkeeping, watchdog arming).  C function pointers are modelled as values
carrying an identity (the address) and a behaviour; the C++ catch clauses of
run, run_setup_for and run_teardown_for are modelled by a result type on hook
and body calls.  Functions of the repository that are not among the sources
(reporter internals, suite.c helpers, the breadcrumb implementation) are
modelled from the spec and marked as such in their doc comments.
-/

namespace Cgreen

/-- The shapes of C++ exceptions the runner catches: the five catch clauses in
run, run_setup_for and run_teardown_for. -/
inductive ExceptionShape where
  /-- catch of a std::exception by reference -/
  | objByRef (what : String)
  /-- catch of a std::exception by pointer -/
  | objByPtr (what : String)
  /-- catch of a std::string by reference -/
  | stringByRef (msg : String)
  /-- catch of a std::string by pointer -/
  | stringByPtr (msg : String)
  /-- catch of a plain C string -/
  | cString (msg : String)
deriving Repr, DecidableEq

/-- The textual description of the exception: what() for exception objects,
c_str() for std::string payloads, the string itself for C strings. -/
def ExceptionShape.detail : ExceptionShape → String
  | .objByRef w => w
  | .objByPtr w => w
  | .stringByRef m => m
  | .stringByPtr m => m
  | .cString m => m

/-- Behaviour of one invocation of a hook or test body: it either returns
normally or lets a C++ exception escape. -/
inductive CallResult where
  | normal
  | throws (e : ExceptionShape)
deriving Repr, DecidableEq

/-- A C function pointer used as a hook: `id` models the address of the
function (0 is reserved for the address of do_nothing), `result` its
behaviour when invoked. -/
structure Hook where
  id : Nat
  result : CallResult
deriving Repr, DecidableEq

/-- The canonical no-op hook that suite construction installs by default. -/
def do_nothing : Hook := ⟨0, CallResult.normal⟩

/-- The per-test context of a CgreenTest: its own optional setup and teardown
function pointers; `none` models a NULL pointer. -/
structure TestContext where
  setup : Option Hook
  teardown : Option Hook
deriving Repr, DecidableEq

/-- One assertion-failure report a test body makes through the reporter while
it executes. -/
structure AssertionFailure where
  filename : String
  line : Nat
  message : String
deriving Repr, DecidableEq

/-- Behaviour of a test body: the failure reports it makes through the
reporter, and whether it finally returns or throws. -/
structure TestBody where
  asserts : List AssertionFailure
  result : CallResult
deriving Repr, DecidableEq

/-- A leaf test: name, source location, per-test context and body. -/
structure CgreenTest where
  name : String
  filename : String
  line : Nat
  context : TestContext
  run : TestBody
deriving Repr, DecidableEq

mutual
/-- One entry of a suite: a leaf test or a nested suite. -/
inductive UnitTest where
  | testItem : CgreenTest → UnitTest
  | suiteItem : TestSuite → UnitTest
/-- A test suite: name, source location, setup and teardown hooks (defaulting
to do_nothing at construction), and its ordered entries. -/
inductive TestSuite where
  | mk : String → String → Nat → Hook → Hook → List UnitTest → TestSuite
end

def TestSuite.name : TestSuite → String
  | .mk n _ _ _ _ _ => n

def TestSuite.filename : TestSuite → String
  | .mk _ f _ _ _ _ => f

def TestSuite.line : TestSuite → Nat
  | .mk _ _ l _ _ _ => l

def TestSuite.setup : TestSuite → Hook
  | .mk _ _ _ s _ _ => s

def TestSuite.teardown : TestSuite → Hook
  | .mk _ _ _ _ t _ => t

def TestSuite.tests : TestSuite → List UnitTest
  | .mk _ _ _ _ _ ts => ts

mutual
/-- Modelled from the spec: count_tests lives in suite.c, which is not among
the sources; start_suite receives the total number of tests in the subtree. -/
def count_tests : TestSuite → Nat
  | .mk _ _ _ _ _ entries => count_tests_in entries

def count_tests_in : List UnitTest → Nat
  | [] => 0
  | .testItem _ :: rest => 1 + count_tests_in rest
  | .suiteItem s :: rest => count_tests s + count_tests_in rest
end

mutual
/-- Modelled from the spec: has_test lives in suite.c, which is not among the
sources; it decides whether the target name occurs somewhere in the subtree. -/
def has_test : TestSuite → String → Bool
  | .mk _ _ _ _ _ entries, name => has_test_in entries name

def has_test_in : List UnitTest → String → Bool
  | [], _ => false
  | .testItem t :: rest, name => (t.name == name) || has_test_in rest name
  | .suiteItem s :: rest, name => has_test s name || has_test_in rest name
end

mutual
/-- The names of all leaf tests in a subtree, in declaration order; used to
state, independently of has_test, that a name occurs in a subtree. -/
def testNames : TestSuite → List String
  | .mk _ _ _ _ _ entries => testNamesIn entries

def testNamesIn : List UnitTest → List String
  | [] => []
  | .testItem t :: rest => t.name :: testNamesIn rest
  | .suiteItem s :: rest => testNames s ++ testNamesIn rest
end

/-- Modelled from the spec: has_setup lives in suite.c, which is not among the
sources; a suite has a setup when its setup pointer is not the address of
do_nothing. -/
def has_setup (suite : TestSuite) : Bool :=
  suite.setup.id != do_nothing.id

/-- The observable events the engine produces: reporter callbacks, hook and
body invocations, mock bookkeeping and watchdog arming. -/
inductive Event where
  | startSuite (name : String) (testCount : Nat)
  | finishSuite (filename : String) (line : Nat)
  | startTest (name : String)
  | finishTest (filename : String) (line : Nat)
  | completionNotification
  | showFail (filename : String) (line : Nat) (message : String)
  | suiteSetupCalled (id : Nat)
  | suiteTeardownCalled (id : Nat)
  | contextSetupCalled (id : Nat)
  | contextTeardownCalled (id : Nat)
  | testBodyCalled (name : String)
  | clearMocksCalled
  | tallyMocksCalled
  | significantFiguresSet (n : Nat)
  | dieInCalled (seconds : Int)
deriving Repr, DecidableEq

/-- The reporter state the run mutates: the two counters read at the end of a
run, and the trace of events delivered so far. -/
structure TestReporter where
  failures : Nat
  exceptions : Nat
  events : List Event
deriving Repr, DecidableEq

/-- Append one event to the trace. -/
def emit (r : TestReporter) (e : Event) : TestReporter :=
  { r with events := r.events ++ [e] }

/-- Modelled from the spec: the failure-reporting callback
(filename, line, message, formatting arguments); the reporter implementation
is not among the sources, and the spec has assertion-level failures increment
the failures counter. -/
def show_fail (r : TestReporter) (filename : String) (line : Nat) (message : String) :
    TestReporter :=
  { r with failures := r.failures + 1,
           events := r.events ++ [Event.showFail filename line message] }

/-- Keep the first n characters of a string: the catch clauses format into a
255-byte buffer with snprintf and size argument 254, which keeps at most 253
characters of the formatted text. -/
def truncateTo (n : Nat) (s : String) : String :=
  String.mk (s.data.take n)

/-- The message a catch clause formats: the fixed prefix, the phase label, and
the textual description of the exception, truncated by the 255-byte buffer. -/
def exception_message (phase : String) (e : ExceptionShape) : String :=
  truncateTo 253 ("an exception was thrown during " ++ phase ++ ": [" ++ e.detail ++ "]")

/-- The common body of a catch clause: report the formatted message through
show_fail at the source location of the test.  Modelled from the spec: the
reporter additionally counts the uncaught-exception event in its exceptions
counter (the reporter implementation is not among the sources). -/
def report_exception (spec : CgreenTest) (phase : String) (e : ExceptionShape)
    (r : TestReporter) : TestReporter :=
  let r := show_fail r spec.filename spec.line (exception_message phase e)
  { r with exceptions := r.exceptions + 1 }

/-- The failure reports a body makes while it executes, applied in order. -/
def apply_asserts (r : TestReporter) : List AssertionFailure → TestReporter
  | [] => r
  | a :: rest => apply_asserts (show_fail r a.filename a.line a.message) rest

/-- run_setup_for: invoke the setup of the context of the test inside the
try block; every catch clause reports through show_fail and returns.  The
callers guard the call with a NULL check, so the none case never runs. -/
def run_setup_for (spec : CgreenTest) (r : TestReporter) : TestReporter :=
  match spec.context.setup with
  | none => r
  | some h =>
    let r := emit r (Event.contextSetupCalled h.id)
    match h.result with
    | .normal => r
    | .throws e => report_exception spec "setup" e r

/-- run_teardown_for: invoke the teardown of the context of the test inside
the try block; every catch clause reports through show_fail and returns. -/
def run_teardown_for (spec : CgreenTest) (r : TestReporter) : TestReporter :=
  match spec.context.teardown with
  | none => r
  | some h =>
    let r := emit r (Event.contextTeardownCalled h.id)
    match h.result with
    | .normal => r
    | .throws e => report_exception spec "teardown" e r

/-- run: invoke the body of the test inside the try block; every catch clause
reports through show_fail and returns, so a throwing body never propagates. -/
def run (spec : CgreenTest) (r : TestReporter) : TestReporter :=
  let r := emit r (Event.testBodyCalled spec.name)
  let r := apply_asserts r spec.run.asserts
  match spec.run.result with
  | .normal => r
  | .throws e => report_exception spec "test" e r

/-- Outcome of a piece of runner code: normal return, process exit through
die, or a C++ exception propagating out of a call that no catch wraps. -/
inductive RunOutcome where
  | ok (r : TestReporter)
  | died (msg : String) (r : TestReporter)
  | thrown (e : ExceptionShape) (r : TestReporter)
deriving Repr, DecidableEq

/-- The reporter state carried by an outcome. -/
def RunOutcome.state : RunOutcome → TestReporter
  | .ok r => r
  | .died _ r => r
  | .thrown _ r => r

/-- A raw invocation of a suite setup hook, as in the three call sites
(*suite->setup)(): no try block wraps it, so a throw propagates. -/
def invoke_suite_setup (h : Hook) (r : TestReporter) : RunOutcome :=
  let r := emit r (Event.suiteSetupCalled h.id)
  match h.result with
  | .normal => .ok r
  | .throws e => .thrown e r

/-- A raw invocation of a suite teardown hook, as in the three call sites
(*suite->teardown)(): no try block wraps it, so a throw propagates. -/
def invoke_suite_teardown (h : Hook) (r : TestReporter) : RunOutcome :=
  let r := emit r (Event.suiteTeardownCalled h.id)
  match h.result with
  | .normal => .ok r
  | .throws e => .thrown e r

/-- The run configuration: the CGREEN_PER_TEST_TIMEOUT environment variable,
modelled after parsing; none when the variable is unset, some v when it is
set to a string atoi parses to v. -/
structure Config where
  timeout : Option Int
deriving Repr, DecidableEq

/-- per_test_timeout_defined: getenv returned non-NULL. -/
def per_test_timeout_defined (cfg : Config) : Bool :=
  cfg.timeout.isSome

/-- The diagnostic die prints for a non-positive timeout value. -/
def invalid_timeout_message (t : Int) : String :=
  "invalid value for CGREEN_PER_TEST_TIMEOUT environment variable: " ++ toString t ++ "\n"

/-- The diagnostic die prints when the value is fetched while undefined. -/
def undefined_timeout_message : String :=
  "attempt to fetch undefined value for CGREEN_PER_TEST_TIMEOUT\n"

/-- per_test_timeout_value: atoi of the variable; the C function dies when the
variable is undefined, and every call site guards with
per_test_timeout_defined, so the none case never runs. -/
def per_test_timeout_value (cfg : Config) : Int :=
  cfg.timeout.getD 0

/-- validate_per_test_timeout_value: fetch the value (dying when undefined)
and die with a diagnostic when it is zero or negative. -/
def validate_per_test_timeout_value (cfg : Config) (r : TestReporter) : RunOutcome :=
  match cfg.timeout with
  | none => .died undefined_timeout_message r
  | some t => if t ≤ 0 then .died (invalid_timeout_message t) r else .ok r

/-- The timeout block at the top of run_the_test_code: when the variable is
defined, validate it again and arm the watchdog with die_in. -/
def timeout_block (cfg : Config) (r : TestReporter) : RunOutcome :=
  if per_test_timeout_defined cfg then
    match validate_per_test_timeout_value cfg r with
    | .ok r => .ok (emit r (Event.dieInCalled (per_test_timeout_value cfg)))
    | o => o
  else .ok r

/-- The setup block of run_the_test_code: for historical reasons the suite can
have a setup; when it does, the suite setup is invoked raw, otherwise the
context setup of the test runs through run_setup_for when it is not NULL. -/
def setup_block (suite : TestSuite) (spec : CgreenTest) (r : TestReporter) : RunOutcome :=
  if has_setup suite then
    invoke_suite_setup suite.setup r
  else if (spec.context.setup).isSome then
    .ok (run_setup_for spec r)
  else
    .ok r

/-- The teardown block of run_the_test_code: for historical reasons the suite
can have a teardown; when its pointer is not the address of do_nothing it is
invoked raw, otherwise the context teardown of the test runs through
run_teardown_for when it is not NULL. -/
def teardown_block (suite : TestSuite) (spec : CgreenTest) (r : TestReporter) : RunOutcome :=
  if suite.teardown.id != do_nothing.id then
    invoke_suite_teardown suite.teardown r
  else if (spec.context.teardown).isSome then
    .ok (run_teardown_for spec r)
  else
    .ok r

/-- run_the_test_code: reset precision and mocks, re-validate and arm the
timeout, run the setup block, the body through run, the teardown block, and
tally the outstanding mock expectations into the reporter. -/
def run_the_test_code (cfg : Config) (suite : TestSuite) (spec : CgreenTest)
    (r : TestReporter) : RunOutcome :=
  let r := emit r (Event.significantFiguresSet 8)
  let r := emit r Event.clearMocksCalled
  match timeout_block cfg r with
  | .ok r =>
    match setup_block suite spec r with
    | .ok r =>
      let r := run spec r
      match teardown_block suite spec r with
      | .ok r => .ok (emit r Event.tallyMocksCalled)
      | o => o
    | o => o
  | o => o

/-- run_test_in_the_current_process: start_test, the per-test sequence, the
completion notification and finish_test. -/
def run_test_in_the_current_process (cfg : Config) (suite : TestSuite) (test : CgreenTest)
    (r : TestReporter) : RunOutcome :=
  let r := emit r (Event.startTest test.name)
  match run_the_test_code cfg suite test r with
  | .ok r => .ok (emit (emit r Event.completionNotification) (Event.finishTest test.filename test.line))
  | o => o

/-- Modelled from the spec: run_test_in_its_own_process belongs to the
process-isolation contract (runner_platform), which is not among the sources.
It runs the per-test sequence in an isolated context and relays its reports;
a crash or exit of the child is contained and never aborts the traversal of
the parent, which proceeds to the completion notification and finish_test. -/
def run_test_in_its_own_process (cfg : Config) (suite : TestSuite) (test : CgreenTest)
    (r : TestReporter) : TestReporter :=
  let r := emit r (Event.startTest test.name)
  let r := (run_the_test_code cfg suite test r).state
  emit (emit r Event.completionNotification) (Event.finishTest test.filename test.line)

mutual
/-- run_every_test: start_suite with the subtree test count, then process the
entries in order, then the completion notification and finish_suite.  The
child-process shortcut run_specified_test_if_child belongs to the process
isolation contract and does nothing in the traversing parent process. -/
def run_every_test (cfg : Config) : TestSuite → TestReporter → RunOutcome
  | .mk name filename line setup teardown entries, r =>
    let suite := TestSuite.mk name filename line setup teardown entries
    let r := emit r (Event.startSuite name (count_tests suite))
    match run_every_entries cfg suite entries r with
    | .ok r => .ok (emit (emit r Event.completionNotification) (Event.finishSuite filename line))
    | o => o

/-- The loop body of run_every_test over the entries of the suite: a leaf test
runs in its own process, a nested suite runs between raw invocations of the
setup and teardown of the enclosing suite. -/
def run_every_entries (cfg : Config) (suite : TestSuite) :
    List UnitTest → TestReporter → RunOutcome
  | [], r => .ok r
  | .testItem t :: rest, r =>
    run_every_entries cfg suite rest (run_test_in_its_own_process cfg suite t r)
  | .suiteItem child :: rest, r =>
    match invoke_suite_setup suite.setup r with
    | .ok r =>
      match run_every_test cfg child r with
      | .ok r =>
        match invoke_suite_teardown suite.teardown r with
        | .ok r => run_every_entries cfg suite rest r
        | o => o
      | o => o
    | o => o
end

mutual
/-- run_named_test: start_suite, then process the entries in order looking for
the target name, then the completion notification and finish_suite. -/
def run_named_test (cfg : Config) (name : String) : TestSuite → TestReporter → RunOutcome
  | .mk sname filename line setup teardown entries, r =>
    let suite := TestSuite.mk sname filename line setup teardown entries
    let r := emit r (Event.startSuite sname (count_tests suite))
    match run_named_entries cfg name suite entries r with
    | .ok r => .ok (emit (emit r Event.completionNotification) (Event.finishSuite filename line))
    | o => o

/-- The loop of run_named_test over the entries of the suite: each entry is
examined in turn through run_named_entry; a hit does not stop the loop. -/
def run_named_entries (cfg : Config) (name : String) (suite : TestSuite) :
    List UnitTest → TestReporter → RunOutcome
  | [], r => .ok r
  | entry :: rest, r =>
    match run_named_entry cfg name suite entry r with
    | .ok r => run_named_entries cfg name suite rest r
    | o => o

/-- The loop body of run_named_test for one entry: a leaf test runs in the
current process when its name matches; a nested suite is entered, between raw
invocations of the setup and teardown of the enclosing suite, only when
has_test finds the target name in its subtree. -/
def run_named_entry (cfg : Config) (name : String) (suite : TestSuite) :
    UnitTest → TestReporter → RunOutcome
  | .testItem t, r =>
    if t.name == name then run_test_in_the_current_process cfg suite t r else .ok r
  | .suiteItem child, r =>
    if has_test child name then
      match invoke_suite_setup suite.setup r with
      | .ok r =>
        match run_named_test cfg name child r with
        | .ok r => invoke_suite_teardown suite.teardown r
        | o => o
      | o => o
    else .ok r
end

/-- Modelled from the spec: setup_reporting belongs to the reporter
implementation, which is not among the sources; the reporter counters are
set up before any test runs. -/
def setup_reporting (r : TestReporter) : TestReporter :=
  { r with failures := 0, exceptions := 0 }

def EXIT_SUCCESS : Nat := 0

def EXIT_FAILURE : Nat := 1

/-- Outcome of a whole run call: the returned exit status, a fatal exit
through die, or a C++ exception propagating out of the traversal. -/
inductive SuiteRunResult where
  | exits (code : Nat) (r : TestReporter)
  | died (msg : String) (r : TestReporter)
  | thrown (e : ExceptionShape) (r : TestReporter)
deriving Repr, DecidableEq

/-- The reporter state carried by the outcome of a run call. -/
def SuiteRunResult.state : SuiteRunResult → TestReporter
  | .exits _ r => r
  | .died _ r => r
  | .thrown _ r => r

/-- run_test_suite: validate the timeout when defined, set up reporting, run
every test, and succeed exactly when both counters are zero. -/
def run_test_suite (cfg : Config) (suite : TestSuite) (r : TestReporter) : SuiteRunResult :=
  match (if per_test_timeout_defined cfg then validate_per_test_timeout_value cfg r
         else .ok r) with
  | .ok r =>
    let r := setup_reporting r
    match run_every_test cfg suite r with
    | .ok r =>
      .exits (if r.failures == 0 && r.exceptions == 0 then EXIT_SUCCESS else EXIT_FAILURE) r
    | .died m r => .died m r
    | .thrown e r => .thrown e r
  | .died m r => .died m r
  | .thrown e r => .thrown e r

/-- run_single_test: validate the timeout when defined, set up reporting, run
the named test, and succeed exactly when the failures counter is zero. -/
def run_single_test (cfg : Config) (suite : TestSuite) (name : String) (r : TestReporter) :
    SuiteRunResult :=
  match (if per_test_timeout_defined cfg then validate_per_test_timeout_value cfg r
         else .ok r) with
  | .ok r =>
    let r := setup_reporting r
    match run_named_test cfg name suite r with
    | .ok r =>
      .exits (if r.failures == 0 then EXIT_SUCCESS else EXIT_FAILURE) r
    | .died m r => .died m r
    | .thrown e r => .thrown e r
  | .died m r => .died m r
  | .thrown e r => .thrown e r

/-!
The breadcrumb context stack.  Modelled from the spec: the breadcrumb
implementation file is not among the sources, only its tests are; the spec
describes an ordered LIFO stack of name labels.  The top of the stack is the
head of the list; get_current_from_breadcrumb returns none on an empty stack,
modelling the NULL the tests compare against; popping an empty breadcrumb is
left open by the spec and modelled as a no-op; walk_breadcrumb visits every
entry oldest first, the order the spec names as the minimal contract.
-/

def Breadcrumb : Type := List String

def create_breadcrumb : Breadcrumb := ([] : List String)

def push_breadcrumb (b : Breadcrumb) (name : String) : Breadcrumb :=
  (name :: (b : List String) : List String)

def pop_breadcrumb (b : Breadcrumb) : Breadcrumb :=
  match (b : List String) with
  | [] => ([] : List String)
  | _ :: t => t

def get_current_from_breadcrumb (b : Breadcrumb) : Option String :=
  match (b : List String) with
  | [] => none
  | n :: _ => some n

def walk_breadcrumb {α : Type} (b : Breadcrumb) (visitor : String → α → α) (memo : α) : α :=
  ((b : List String).reverse).foldl (fun m n => visitor n m) memo

/-! Event classifiers used to state which hook and reporter events a piece of
the run produced. -/

def Event.isSetupCall : Event → Bool
  | .suiteSetupCalled _ => true
  | .contextSetupCalled _ => true
  | _ => false

def Event.isTeardownCall : Event → Bool
  | .suiteTeardownCalled _ => true
  | .contextTeardownCalled _ => true
  | _ => false

def Event.isStartTest : Event → Bool
  | .startTest _ => true
  | _ => false

def Event.isFinishTest : Event → Bool
  | .finishTest _ _ => true
  | _ => false

def Event.isTestBody : Event → Bool
  | .testBodyCalled _ => true
  | _ => false

def Event.isStartSuite : Event → Bool
  | .startSuite _ _ => true
  | _ => false

def Event.isShowFail : Event → Bool
  | .showFail _ _ _ => true
  | _ => false

def Event.isTally : Event → Bool
  | .tallyMocksCalled => true
  | _ => false

/-! Concrete sample data used by the witness theorems. -/

/-- A context with no hooks of its own (both pointers NULL). -/
def nullContext : TestContext := ⟨none, none⟩

/-- A body that reports nothing and returns normally. -/
def quietBody : TestBody := ⟨[], CallResult.normal⟩

/-- A body that throws a C-string exception. -/
def throwingBody : TestBody := ⟨[], CallResult.throws (ExceptionShape.cString "boom")⟩

def sampleTest : CgreenTest := ⟨"alpha", "a.c", 3, nullContext, quietBody⟩

def sampleThrowingTest : CgreenTest := ⟨"beta", "b.c", 9, nullContext, throwingBody⟩

def sampleInnerSuite : TestSuite :=
  .mk "inner" "i.c" 1 do_nothing do_nothing [.testItem sampleThrowingTest]

def sampleSuite : TestSuite :=
  .mk "outer" "o.c" 2 do_nothing do_nothing
    [.testItem sampleTest, .suiteItem sampleInnerSuite]

/-- A suite whose setup hook (address 7) throws a C-string exception. -/
def throwingSetupSuite : TestSuite :=
  .mk "bad" "s.c" 4 ⟨7, CallResult.throws (ExceptionShape.cString "boom")⟩ do_nothing
    [.testItem sampleTest]

/-- A test whose context setup (address 5) throws an owned std::string. -/
def contextThrowTest : CgreenTest :=
  ⟨"gamma", "g.c", 11, ⟨some ⟨5, CallResult.throws (ExceptionShape.stringByRef "bang")⟩, none⟩,
   quietBody⟩

/-- A second test that shares the name of sampleTest. -/
def sampleTwin : CgreenTest := ⟨"alpha", "a2.c", 5, nullContext, quietBody⟩

def freshReporter : TestReporter := ⟨0, 0, []⟩

def noTimeoutConfig : Config := ⟨none⟩

def zeroTimeoutConfig : Config := ⟨some 0⟩

end Cgreen

namespace Cgreen

/-! Helper lemmas shared by the claim theorems. -/

theorem run_test_suite_exits_eq (cfg : Config) (suite : TestSuite) (r : TestReporter)
    (code : Nat) (r₁ : TestReporter)
    (h : run_test_suite cfg suite r = SuiteRunResult.exits code r₁) :
    code = if r₁.failures == 0 && r₁.exceptions == 0 then EXIT_SUCCESS else EXIT_FAILURE := by
  unfold run_test_suite at h
  split at h
  · dsimp only at h
    split at h
    · rcases h with ⟨rfl, rfl⟩
      rfl
    · exact absurd h (by simp)
    · exact absurd h (by simp)
  · exact absurd h (by simp)
  · exact absurd h (by simp)

theorem run_single_test_exits_eq (cfg : Config) (suite : TestSuite) (name : String)
    (r : TestReporter) (code : Nat) (r₁ : TestReporter)
    (h : run_single_test cfg suite name r = SuiteRunResult.exits code r₁) :
    code = if r₁.failures == 0 then EXIT_SUCCESS else EXIT_FAILURE := by
  unfold run_single_test at h
  split at h
  · dsimp only at h
    split at h
    · rcases h with ⟨rfl, rfl⟩
      rfl
    · exact absurd h (by simp)
    · exact absurd h (by simp)
  · exact absurd h (by simp)
  · exact absurd h (by simp)

/-- C1: the full-suite run returns the success status exactly when, after the
complete traversal, the failures counter and the exceptions counter of the
reporter are both zero, and otherwise returns the failure status; the
named-test mode, by contrast, never consults the exceptions counter, so the
full-suite run is the only mode in which exceptions independently gate
success. -/
theorem full_suite_success_iff_no_failures_and_no_exceptions
    (cfg : Config) (suite : TestSuite) (r : TestReporter) (code : Nat) (r₁ : TestReporter)
    (h : run_test_suite cfg suite r = SuiteRunResult.exits code r₁) :
    (code = EXIT_SUCCESS ↔ (r₁.failures = 0 ∧ r₁.exceptions = 0)) ∧
    (code ≠ EXIT_SUCCESS → code = EXIT_FAILURE) ∧
    (∀ (name : String) (code₂ : Nat) (r₂ : TestReporter),
      run_single_test cfg suite name r = SuiteRunResult.exits code₂ r₂ →
        (code₂ = EXIT_SUCCESS ↔ r₂.failures = 0)) := by
  have hc := run_test_suite_exits_eq cfg suite r code r₁ h
  refine ⟨?_, ?_, ?_⟩
  · subst hc
    by_cases hf : r₁.failures = 0 <;> by_cases hx : r₁.exceptions = 0 <;>
      simp [hf, hx, EXIT_SUCCESS, EXIT_FAILURE]
  · subst hc
    split <;> simp
  · intro name code₂ r₂ h₂
    have hc₂ := run_single_test_exits_eq cfg suite name r code₂ r₂ h₂
    subst hc₂
    by_cases hf : r₂.failures = 0 <;> simp [hf, EXIT_SUCCESS, EXIT_FAILURE]

/-- C1 witness: on a concrete tree with one passing test and one nested test
whose body throws, the full-suite run exits with the failure status and the
theorem applies. -/
theorem full_suite_success_iff_witness :
    (EXIT_FAILURE = EXIT_SUCCESS ↔
      ((run_test_suite noTimeoutConfig sampleSuite freshReporter).state.failures = 0 ∧
       (run_test_suite noTimeoutConfig sampleSuite freshReporter).state.exceptions = 0)) ∧
    (EXIT_FAILURE ≠ EXIT_SUCCESS → EXIT_FAILURE = EXIT_FAILURE) ∧
    (∀ (name : String) (code₂ : Nat) (r₂ : TestReporter),
      run_single_test noTimeoutConfig sampleSuite name freshReporter =
        SuiteRunResult.exits code₂ r₂ →
        (code₂ = EXIT_SUCCESS ↔ r₂.failures = 0)) :=
  full_suite_success_iff_no_failures_and_no_exceptions noTimeoutConfig sampleSuite
    freshReporter EXIT_FAILURE
    (run_test_suite noTimeoutConfig sampleSuite freshReporter).state (by decide)

/-- C5: the named-test run returns the success status exactly when the
failures counter is zero after traversal; the exceptions counter does not
occur in the check, so for any two final states that agree on failures the
verdict is the same whatever their exceptions counters are. -/
theorem named_run_success_iff_no_failures
    (cfg : Config) (suite : TestSuite) (name : String) (r : TestReporter)
    (code : Nat) (r₁ : TestReporter)
    (h : run_single_test cfg suite name r = SuiteRunResult.exits code r₁) :
    (code = EXIT_SUCCESS ↔ r₁.failures = 0) ∧
    (code ≠ EXIT_SUCCESS → code = EXIT_FAILURE) ∧
    (∀ (cfg₂ : Config) (suite₂ : TestSuite) (name₂ : String) (r₂ : TestReporter)
       (code₂ : Nat) (r₃ : TestReporter),
      run_single_test cfg₂ suite₂ name₂ r₂ = SuiteRunResult.exits code₂ r₃ →
      r₃.failures = r₁.failures → code₂ = code) := by
  have hc := run_single_test_exits_eq cfg suite name r code r₁ h
  refine ⟨?_, ?_, ?_⟩
  · subst hc
    by_cases hf : r₁.failures = 0 <;> simp [hf, EXIT_SUCCESS, EXIT_FAILURE]
  · subst hc
    split <;> simp
  · intro cfg₂ suite₂ name₂ r₂ code₂ r₃ h₂ hf
    have hc₂ := run_single_test_exits_eq cfg₂ suite₂ name₂ r₂ code₂ r₃ h₂
    rw [hc₂, hc, hf]

/-- C5 witness: on a concrete tree where the named test throws, the named run
exits with the failure status and the theorem applies. -/
theorem named_run_success_iff_witness :
    (EXIT_FAILURE = EXIT_SUCCESS ↔
      (run_single_test noTimeoutConfig sampleSuite "beta" freshReporter).state.failures = 0) ∧
    (EXIT_FAILURE ≠ EXIT_SUCCESS → EXIT_FAILURE = EXIT_FAILURE) ∧
    (∀ (cfg₂ : Config) (suite₂ : TestSuite) (name₂ : String) (r₂ : TestReporter)
       (code₂ : Nat) (r₃ : TestReporter),
      run_single_test cfg₂ suite₂ name₂ r₂ = SuiteRunResult.exits code₂ r₃ →
      r₃.failures =
        (run_single_test noTimeoutConfig sampleSuite "beta" freshReporter).state.failures →
      code₂ = EXIT_FAILURE) :=
  named_run_success_iff_no_failures noTimeoutConfig sampleSuite "beta" freshReporter
    EXIT_FAILURE
    (run_single_test noTimeoutConfig sampleSuite "beta" freshReporter).state (by decide)

/-- C6: with the timeout variable set to a value that parses to zero or
negative, both run calls die immediately with the diagnostic message and the
reporter state untouched, so no start_suite and no test event is ever
emitted; and the per-test sequence applies the identical validation and dies
with the identical diagnostic right after its two reset steps. -/
theorem invalid_timeout_fatal
    (cfg : Config) (suite : TestSuite) (spec : CgreenTest) (name : String)
    (r : TestReporter) (t : Int)
    (hdef : cfg.timeout = some t) (hval : t ≤ 0) :
    run_test_suite cfg suite r = SuiteRunResult.died (invalid_timeout_message t) r ∧
    run_single_test cfg suite name r =
      SuiteRunResult.died (invalid_timeout_message t) r ∧
    run_the_test_code cfg suite spec r =
      RunOutcome.died (invalid_timeout_message t)
        (emit (emit r (Event.significantFiguresSet 8)) Event.clearMocksCalled) := by
  refine ⟨?_, ?_, ?_⟩
  · unfold run_test_suite
    simp [per_test_timeout_defined, hdef, validate_per_test_timeout_value, hval]
  · unfold run_single_test
    simp [per_test_timeout_defined, hdef, validate_per_test_timeout_value, hval]
  · unfold run_the_test_code timeout_block
    simp [per_test_timeout_defined, hdef, validate_per_test_timeout_value, hval]

/-- C6 witness: with the timeout variable set to 0, both run calls and the
per-test sequence die with the diagnostic naming the value 0. -/
theorem invalid_timeout_fatal_witness :
    run_test_suite zeroTimeoutConfig sampleSuite freshReporter =
      SuiteRunResult.died (invalid_timeout_message 0) freshReporter ∧
    run_single_test zeroTimeoutConfig sampleSuite "alpha" freshReporter =
      SuiteRunResult.died (invalid_timeout_message 0) freshReporter ∧
    run_the_test_code zeroTimeoutConfig sampleSuite sampleTest freshReporter =
      RunOutcome.died (invalid_timeout_message 0)
        (emit (emit freshReporter (Event.significantFiguresSet 8)) Event.clearMocksCalled) :=
  invalid_timeout_fatal zeroTimeoutConfig sampleSuite sampleTest "alpha" freshReporter 0
    rfl (by decide)

/-! Per-stage characterization lemmas for the per-test execution sequence. -/

theorem apply_asserts_failures (l : List AssertionFailure) (r : TestReporter) :
    (apply_asserts r l).failures = r.failures + l.length := by
  induction l generalizing r with
  | nil => simp [apply_asserts]
  | cons a rest ih =>
    simp [apply_asserts, show_fail, ih]
    omega

theorem apply_asserts_exceptions (l : List AssertionFailure) (r : TestReporter) :
    (apply_asserts r l).exceptions = r.exceptions := by
  induction l generalizing r with
  | nil => rfl
  | cons a rest ih => simp [apply_asserts, show_fail, ih]

theorem apply_asserts_events (l : List AssertionFailure) (r : TestReporter) :
    (apply_asserts r l).events =
      r.events ++ l.map (fun a => Event.showFail a.filename a.line a.message) := by
  induction l generalizing r with
  | nil => simp [apply_asserts]
  | cons a rest ih => simp [apply_asserts, show_fail, ih]

theorem filter_map_showFail (p : Event → Bool)
    (hp : ∀ f ln m, p (Event.showFail f ln m) = false) (l : List AssertionFailure) :
    (l.map fun a => Event.showFail a.filename a.line a.message).filter p = [] := by
  induction l with
  | nil => rfl
  | cons a rest ih => simp [hp, ih]

theorem timeout_block_none (cfg : Config) (r : TestReporter) (h : cfg.timeout = none) :
    timeout_block cfg r = RunOutcome.ok r := by
  simp [timeout_block, per_test_timeout_defined, h]

theorem timeout_block_pos (cfg : Config) (r : TestReporter) (t : Int)
    (h : cfg.timeout = some t) (hp : 0 < t) :
    timeout_block cfg r = RunOutcome.ok (emit r (Event.dieInCalled t)) := by
  simp [timeout_block, per_test_timeout_defined, h, validate_per_test_timeout_value,
        per_test_timeout_value, Int.not_le.mpr hp]

/-- When the suite setup, if any, returns normally, the setup block returns
normally; it adds exactly the invocation event of the one setup source the
precedence rule selects, and no teardown invocation event. -/
theorem setup_block_ok_filters (suite : TestSuite) (spec : CgreenTest) (r : TestReporter)
    (hs : has_setup suite = true → suite.setup.result = CallResult.normal) :
    ∃ r₁, setup_block suite spec r = RunOutcome.ok r₁ ∧
      r₁.events.filter Event.isSetupCall
        = r.events.filter Event.isSetupCall ++
          (if has_setup suite then [Event.suiteSetupCalled suite.setup.id]
           else match spec.context.setup with
                | some h => [Event.contextSetupCalled h.id]
                | none => []) ∧
      r₁.events.filter Event.isTeardownCall = r.events.filter Event.isTeardownCall := by
  unfold setup_block invoke_suite_setup run_setup_for
  rcases hsu : has_setup suite with _ | _
  · rcases hcs : spec.context.setup with _ | hk
    · exact ⟨r, by simp [hsu, hcs], by simp [hsu, hcs], rfl⟩
    · rcases hkr : hk.result with _ | e
      · refine ⟨emit r (Event.contextSetupCalled hk.id), ?_, ?_, ?_⟩
        · simp [hsu, hcs, hkr]
        · simp [emit, List.filter_append, Event.isSetupCall, hsu, hcs]
        · simp [emit, List.filter_append, Event.isTeardownCall]
      · refine ⟨report_exception spec "setup" e (emit r (Event.contextSetupCalled hk.id)), ?_, ?_, ?_⟩
        · simp [hsu, hcs, hkr]
        · simp [emit, report_exception, show_fail, List.filter_append,
                Event.isSetupCall, hsu, hcs]
        · simp [emit, report_exception, show_fail, List.filter_append, Event.isTeardownCall]
  · have hn := hs hsu
    refine ⟨emit r (Event.suiteSetupCalled suite.setup.id), ?_, ?_, ?_⟩
    · simp [hsu, hn]
    · simp [emit, List.filter_append, Event.isSetupCall, hsu]
    · simp [emit, List.filter_append, Event.isTeardownCall]

/-- The body wrapper run adds no setup-call, teardown-call, start-test or
finish-test events: only the body-called event and failure reports. -/
theorem run_events_filter (p : Event → Bool)
    (hb : ∀ n, p (Event.testBodyCalled n) = false)
    (hf : ∀ f ln m, p (Event.showFail f ln m) = false)
    (spec : CgreenTest) (r : TestReporter) :
    ((run spec r).events).filter p = r.events.filter p := by
  unfold run
  rcases hbr : spec.run.result with _ | e <;>
    simp [emit, report_exception, show_fail, apply_asserts_events, List.filter_append,
          filter_map_showFail p hf, hb, hf]

/-- The teardown block followed by the mock tally adds no setup-call event. -/
theorem teardown_and_tally_filter_setup (suite : TestSuite) (spec : CgreenTest)
    (r : TestReporter) :
    (match teardown_block suite spec r with
     | RunOutcome.ok r => RunOutcome.ok (emit r Event.tallyMocksCalled)
     | o => o).state.events.filter Event.isSetupCall
      = r.events.filter Event.isSetupCall := by
  unfold teardown_block invoke_suite_teardown run_teardown_for
  rcases htd : (suite.teardown.id != do_nothing.id) with _ | _
  · rcases hctd : spec.context.teardown with _ | hk
    · simp [htd, hctd, emit, List.filter_append, RunOutcome.state, Event.isSetupCall]
    · rcases hkr : hk.result with _ | e <;>
        simp [htd, hctd, hkr, emit, report_exception, show_fail, List.filter_append,
              RunOutcome.state, Event.isSetupCall]
  · rcases htr : suite.teardown.result with _ | e <;>
      simp [htd, htr, emit, List.filter_append, RunOutcome.state, Event.isSetupCall]

/-- The teardown block followed by the mock tally adds exactly the invocation
event of the one teardown source the mirrored precedence rule selects. -/
theorem teardown_and_tally_filter_teardown (suite : TestSuite) (spec : CgreenTest)
    (r : TestReporter) :
    (match teardown_block suite spec r with
     | RunOutcome.ok r => RunOutcome.ok (emit r Event.tallyMocksCalled)
     | o => o).state.events.filter Event.isTeardownCall
      = r.events.filter Event.isTeardownCall ++
        (if suite.teardown.id != do_nothing.id then
           [Event.suiteTeardownCalled suite.teardown.id]
         else match spec.context.teardown with
              | some h => [Event.contextTeardownCalled h.id]
              | none => []) := by
  unfold teardown_block invoke_suite_teardown run_teardown_for
  rcases htd : (suite.teardown.id != do_nothing.id) with _ | _
  · rcases hctd : spec.context.teardown with _ | hk
    · simp [htd, hctd, emit, List.filter_append, RunOutcome.state, Event.isTeardownCall]
    · rcases hkr : hk.result with _ | e <;>
        simp [htd, hctd, hkr, emit, report_exception, show_fail, List.filter_append,
              RunOutcome.state, Event.isTeardownCall]
  · rcases htr : suite.teardown.result with _ | e <;>
      simp [htd, htr, emit, List.filter_append, RunOutcome.state, Event.isTeardownCall]

/-- C3: in the per-test sequence, exactly one setup source and exactly one
teardown source is invoked, resolved by the legacy precedence rule: the suite
setup when the suite defines a non-default one, otherwise the context setup
of the test when defined, otherwise none, and mirrored for teardown with the
do_nothing comparison; never both sources for the same phase.  The suite
setup, when selected, is assumed to return, since it runs outside any catch
and a throw would end the sequence before the teardown phase. -/
theorem legacy_hook_precedence (cfg : Config) (suite : TestSuite) (spec : CgreenTest)
    (r : TestReporter)
    (htimeout : ∀ t, cfg.timeout = some t → 0 < t)
    (hsetup : has_setup suite = true → suite.setup.result = CallResult.normal) :
    ((run_the_test_code cfg suite spec r).state.events.filter Event.isSetupCall
      = r.events.filter Event.isSetupCall ++
        (if has_setup suite then [Event.suiteSetupCalled suite.setup.id]
         else match spec.context.setup with
              | some h => [Event.contextSetupCalled h.id]
              | none => [])) ∧
    ((run_the_test_code cfg suite spec r).state.events.filter Event.isTeardownCall
      = r.events.filter Event.isTeardownCall ++
        (if suite.teardown.id != do_nothing.id then
           [Event.suiteTeardownCalled suite.teardown.id]
         else match spec.context.teardown with
              | some h => [Event.contextTeardownCalled h.id]
              | none => [])) := by
  unfold run_the_test_code
  dsimp only
  rcases hct : cfg.timeout with _ | t
  · rw [timeout_block_none cfg _ hct]
    dsimp only
    obtain ⟨r₁, hok, hsf, htf⟩ :=
      setup_block_ok_filters suite spec
        (emit (emit r (Event.significantFiguresSet 8)) Event.clearMocksCalled) hsetup
    rw [hok]
    dsimp only
    rw [teardown_and_tally_filter_setup, teardown_and_tally_filter_teardown,
        run_events_filter Event.isSetupCall (fun _ => rfl) (fun _ _ _ => rfl),
        run_events_filter Event.isTeardownCall (fun _ => rfl) (fun _ _ _ => rfl),
        hsf, htf]
    simp [emit, List.filter_append, Event.isSetupCall, Event.isTeardownCall]
  · have hpos := htimeout t hct
    rw [timeout_block_pos cfg _ t hct hpos]
    dsimp only
    obtain ⟨r₁, hok, hsf, htf⟩ :=
      setup_block_ok_filters suite spec
        (emit (emit (emit r (Event.significantFiguresSet 8)) Event.clearMocksCalled)
          (Event.dieInCalled t)) hsetup
    rw [hok]
    dsimp only
    rw [teardown_and_tally_filter_setup, teardown_and_tally_filter_teardown,
        run_events_filter Event.isSetupCall (fun _ => rfl) (fun _ _ _ => rfl),
        run_events_filter Event.isTeardownCall (fun _ => rfl) (fun _ _ _ => rfl),
        hsf, htf]
    simp [emit, List.filter_append, Event.isSetupCall, Event.isTeardownCall]

/-- C3 witness: a suite with a custom setup (address 7, normal) and a test
whose context also defines a setup (address 5): only the suite setup event
appears, and with both teardown sources default and NULL no teardown event
appears. -/
theorem legacy_hook_precedence_witness :
    ((run_the_test_code noTimeoutConfig
        (TestSuite.mk "s" "s.c" 1 ⟨7, CallResult.normal⟩ do_nothing [])
        contextThrowTest freshReporter).state.events.filter Event.isSetupCall
      = freshReporter.events.filter Event.isSetupCall ++
        (if has_setup (TestSuite.mk "s" "s.c" 1 ⟨7, CallResult.normal⟩ do_nothing []) then
           [Event.suiteSetupCalled
              (TestSuite.setup (TestSuite.mk "s" "s.c" 1 ⟨7, CallResult.normal⟩ do_nothing [])).id]
         else match contextThrowTest.context.setup with
              | some h => [Event.contextSetupCalled h.id]
              | none => [])) ∧
    ((run_the_test_code noTimeoutConfig
        (TestSuite.mk "s" "s.c" 1 ⟨7, CallResult.normal⟩ do_nothing [])
        contextThrowTest freshReporter).state.events.filter Event.isTeardownCall
      = freshReporter.events.filter Event.isTeardownCall ++
        (if (TestSuite.teardown
              (TestSuite.mk "s" "s.c" 1 ⟨7, CallResult.normal⟩ do_nothing [])).id
            != do_nothing.id then
           [Event.suiteTeardownCalled
              (TestSuite.teardown
                (TestSuite.mk "s" "s.c" 1 ⟨7, CallResult.normal⟩ do_nothing [])).id]
         else match contextThrowTest.context.teardown with
              | some h => [Event.contextTeardownCalled h.id]
              | none => [])) :=
  legacy_hook_precedence noTimeoutConfig
    (TestSuite.mk "s" "s.c" 1 ⟨7, CallResult.normal⟩ do_nothing [])
    contextThrowTest freshReporter
    (fun t ht => by simp [noTimeoutConfig] at ht) (fun _ => rfl)

/-- The body wrapper adds exactly one body-called event. -/
theorem run_events_filter_body (spec : CgreenTest) (r : TestReporter) :
    ((run spec r).events).filter Event.isTestBody
      = r.events.filter Event.isTestBody ++ [Event.testBodyCalled spec.name] := by
  unfold run
  rcases hbr : spec.run.result with _ | e <;>
    simp [hbr, emit, report_exception, show_fail, apply_asserts_events, List.filter_append,
          filter_map_showFail Event.isTestBody (fun _ _ _ => rfl), Event.isTestBody]

/-- C9: when the suite has no custom setup and the context setup pointer of
the test is NULL, and likewise the suite teardown is do_nothing and the
context teardown pointer is NULL, the per-test sequence invokes no setup and
no teardown hook at all, never calls the null pointers, and still proceeds
through the body to the mock tally and returns normally. -/
theorem null_hooks_skipped_safely (cfg : Config) (suite : TestSuite) (spec : CgreenTest)
    (r : TestReporter)
    (htimeout : ∀ t, cfg.timeout = some t → 0 < t)
    (hsu : has_setup suite = false)
    (hcs : spec.context.setup = none)
    (htd : suite.teardown.id = do_nothing.id)
    (hctd : spec.context.teardown = none) :
    ∃ r₁, run_the_test_code cfg suite spec r = RunOutcome.ok r₁ ∧
      r₁.events.filter Event.isSetupCall = r.events.filter Event.isSetupCall ∧
      r₁.events.filter Event.isTeardownCall = r.events.filter Event.isTeardownCall ∧
      r₁.events.filter Event.isTestBody
        = r.events.filter Event.isTestBody ++ [Event.testBodyCalled spec.name] ∧
      r₁.events.filter Event.isTally
        = r.events.filter Event.isTally ++ [Event.tallyMocksCalled] := by
  unfold run_the_test_code
  dsimp only
  rcases hct : cfg.timeout with _ | t
  · rw [timeout_block_none cfg _ hct]
    dsimp only
    rw [show setup_block suite spec
          (emit (emit r (Event.significantFiguresSet 8)) Event.clearMocksCalled)
        = RunOutcome.ok (emit (emit r (Event.significantFiguresSet 8)) Event.clearMocksCalled)
        from by simp [setup_block, hsu, hcs]]
    dsimp only
    rw [show ∀ rx, teardown_block suite spec rx = RunOutcome.ok rx
        from fun rx => by simp [teardown_block, htd, hctd]]
    dsimp only
    refine ⟨_, rfl, ?_, ?_, ?_, ?_⟩ <;>
      simp [emit, List.filter_append,
            run_events_filter Event.isSetupCall (fun _ => rfl) (fun _ _ _ => rfl),
            run_events_filter Event.isTeardownCall (fun _ => rfl) (fun _ _ _ => rfl),
            run_events_filter Event.isTally (fun _ => rfl) (fun _ _ _ => rfl),
            run_events_filter_body, Event.isSetupCall, Event.isTeardownCall,
            Event.isTestBody, Event.isTally]
  · have hpos := htimeout t hct
    rw [timeout_block_pos cfg _ t hct hpos]
    dsimp only
    rw [show setup_block suite spec
          (emit (emit (emit r (Event.significantFiguresSet 8)) Event.clearMocksCalled)
            (Event.dieInCalled t))
        = RunOutcome.ok
            (emit (emit (emit r (Event.significantFiguresSet 8)) Event.clearMocksCalled)
              (Event.dieInCalled t))
        from by simp [setup_block, hsu, hcs]]
    dsimp only
    rw [show ∀ rx, teardown_block suite spec rx = RunOutcome.ok rx
        from fun rx => by simp [teardown_block, htd, hctd]]
    dsimp only
    refine ⟨_, rfl, ?_, ?_, ?_, ?_⟩ <;>
      simp [emit, List.filter_append,
            run_events_filter Event.isSetupCall (fun _ => rfl) (fun _ _ _ => rfl),
            run_events_filter Event.isTeardownCall (fun _ => rfl) (fun _ _ _ => rfl),
            run_events_filter Event.isTally (fun _ => rfl) (fun _ _ _ => rfl),
            run_events_filter_body, Event.isSetupCall, Event.isTeardownCall,
            Event.isTestBody, Event.isTally]

/-- C9 witness: a hookless suite and a hookless test: no setup or teardown
event, one body event, one tally event, normal return. -/
theorem null_hooks_skipped_safely_witness :
    ∃ r₁, run_the_test_code noTimeoutConfig
        (TestSuite.mk "h" "h.c" 1 do_nothing do_nothing []) sampleTest freshReporter
        = RunOutcome.ok r₁ ∧
      r₁.events.filter Event.isSetupCall = freshReporter.events.filter Event.isSetupCall ∧
      r₁.events.filter Event.isTeardownCall = freshReporter.events.filter Event.isTeardownCall ∧
      r₁.events.filter Event.isTestBody
        = freshReporter.events.filter Event.isTestBody ++ [Event.testBodyCalled sampleTest.name] ∧
      r₁.events.filter Event.isTally
        = freshReporter.events.filter Event.isTally ++ [Event.tallyMocksCalled] :=
  null_hooks_skipped_safely noTimeoutConfig
    (TestSuite.mk "h" "h.c" 1 do_nothing do_nothing []) sampleTest freshReporter
    (fun t ht => by simp [noTimeoutConfig] at ht) (by decide) rfl (by decide) rfl

/-! Extension lemmas: each stage of the per-test sequence only appends to the
event trace, and returns normally when its raw hook, if selected, returns. -/

theorem timeout_block_ok_extend (cfg : Config) (r : TestReporter)
    (ht : ∀ t, cfg.timeout = some t → 0 < t) :
    ∃ r₁ d, timeout_block cfg r = RunOutcome.ok r₁ ∧ r₁.events = r.events ++ d := by
  rcases hct : cfg.timeout with _ | t
  · exact ⟨r, [], timeout_block_none cfg r hct, by simp⟩
  · exact ⟨emit r (Event.dieInCalled t), [Event.dieInCalled t],
      timeout_block_pos cfg r t hct (ht t hct), by simp [emit]⟩

theorem setup_block_extend (suite : TestSuite) (spec : CgreenTest) (r : TestReporter)
    (hs : has_setup suite = true → suite.setup.result = CallResult.normal) :
    ∃ r₁ d, setup_block suite spec r = RunOutcome.ok r₁ ∧ r₁.events = r.events ++ d := by
  unfold setup_block invoke_suite_setup run_setup_for
  rcases hsu : has_setup suite with _ | _
  · rcases hcs : spec.context.setup with _ | hk
    · exact ⟨r, [], by simp [hsu, hcs], by simp⟩
    · rcases hkr : hk.result with _ | e
      · exact ⟨emit r (Event.contextSetupCalled hk.id), [Event.contextSetupCalled hk.id],
          by simp [hsu, hcs, hkr], by simp [emit]⟩
      · exact ⟨report_exception spec "setup" e (emit r (Event.contextSetupCalled hk.id)),
          [Event.contextSetupCalled hk.id,
           Event.showFail spec.filename spec.line (exception_message "setup" e)],
          by simp [hsu, hcs, hkr],
          by simp [emit, report_exception, show_fail]⟩
  · exact ⟨emit r (Event.suiteSetupCalled suite.setup.id), [Event.suiteSetupCalled suite.setup.id],
      by simp [hsu, hs hsu], by simp [emit]⟩

theorem teardown_block_extend (suite : TestSuite) (spec : CgreenTest) (r : TestReporter)
    (hts : (suite.teardown.id != do_nothing.id) = true →
      suite.teardown.result = CallResult.normal) :
    ∃ r₁ d, teardown_block suite spec r = RunOutcome.ok r₁ ∧ r₁.events = r.events ++ d := by
  unfold teardown_block invoke_suite_teardown run_teardown_for
  rcases htd : (suite.teardown.id != do_nothing.id) with _ | _
  · rcases hctd : spec.context.teardown with _ | hk
    · exact ⟨r, [], by simp [htd, hctd], by simp⟩
    · rcases hkr : hk.result with _ | e
      · exact ⟨emit r (Event.contextTeardownCalled hk.id), [Event.contextTeardownCalled hk.id],
          by simp [htd, hctd, hkr], by simp [emit]⟩
      · exact ⟨report_exception spec "teardown" e (emit r (Event.contextTeardownCalled hk.id)),
          [Event.contextTeardownCalled hk.id,
           Event.showFail spec.filename spec.line (exception_message "teardown" e)],
          by simp [htd, hctd, hkr],
          by simp [emit, report_exception, show_fail]⟩
  · exact ⟨emit r (Event.suiteTeardownCalled suite.teardown.id),
      [Event.suiteTeardownCalled suite.teardown.id],
      by simp [htd, hts htd], by simp [emit]⟩

theorem run_events_extend (spec : CgreenTest) (r : TestReporter) :
    ∃ d, (run spec r).events = r.events ++ d := by
  unfold run
  rcases hbr : spec.run.result with _ | e
  · exact ⟨Event.testBodyCalled spec.name ::
      (spec.run.asserts.map fun a => Event.showFail a.filename a.line a.message),
      by simp [hbr, emit, apply_asserts_events]⟩
  · exact ⟨Event.testBodyCalled spec.name ::
      ((spec.run.asserts.map fun a => Event.showFail a.filename a.line a.message) ++
       [Event.showFail spec.filename spec.line (exception_message "test" e)]),
      by simp [hbr, emit, apply_asserts_events, report_exception, show_fail]⟩

/-- C2 counterexample: a suite whose non-default setup throws.  The setup that
runs for the test is then the suite setup, invoked at run_the_test_code line
252 outside any try block, so the exception escapes the per-test sequence
uncaught and unreported, and the traversal loop of a named run stops instead
of continuing with the sibling test of the same name. -/
theorem suite_setup_exception_escapes :
    run_the_test_code noTimeoutConfig throwingSetupSuite sampleTest freshReporter
      = RunOutcome.thrown (ExceptionShape.cString "boom")
          (emit (emit (emit freshReporter (Event.significantFiguresSet 8))
            Event.clearMocksCalled) (Event.suiteSetupCalled 7)) ∧
    (run_the_test_code noTimeoutConfig throwingSetupSuite sampleTest
        freshReporter).state.events.filter Event.isShowFail = [] ∧
    (run_the_test_code noTimeoutConfig throwingSetupSuite sampleTest
        freshReporter).state.failures = freshReporter.failures ∧
    (run_named_entries noTimeoutConfig "alpha" throwingSetupSuite
        [UnitTest.testItem sampleTest, UnitTest.testItem sampleTwin]
        freshReporter).state.events.filter Event.isStartTest
      = [Event.startTest "alpha"] := by
  refine ⟨by decide, by decide, by decide, by decide⟩

/-- C2 amended: for every test where an uncaught exception of one of the five
caught shapes arises inside a wrapped phase — the context setup of the test
(the setup source selected when the suite defines no custom setup), the body,
or the context teardown (selected when the suite teardown is do_nothing) —
the engine catches it, reports a failure through show_fail at the file and
line of the test with the message an exception was thrown during {phase}:
[{detail}] as kept by the 255-byte snprintf buffer, the per-test execution
returns normally, and the named-run traversal loop continues with the
remaining entries.  A suite-level hook selected by the precedence rule runs
outside any catch, so the rule does not extend to it. -/
theorem exception_capture_in_wrapped_phases (cfg : Config) (suite : TestSuite)
    (spec : CgreenTest) (r : TestReporter) (e : ExceptionShape)
    (ht : ∀ t, cfg.timeout = some t → 0 < t) :
    (∀ hk, has_setup suite = false → spec.context.setup = some hk →
      hk.result = CallResult.throws e →
      ((suite.teardown.id != do_nothing.id) = true →
        suite.teardown.result = CallResult.normal) →
      ∃ r₁, run_test_in_the_current_process cfg suite spec r = RunOutcome.ok r₁ ∧
        Event.showFail spec.filename spec.line (exception_message "setup" e) ∈ r₁.events ∧
        ∀ rest, run_named_entries cfg spec.name suite (UnitTest.testItem spec :: rest) r
          = run_named_entries cfg spec.name suite rest r₁) ∧
    (spec.run.result = CallResult.throws e →
      (has_setup suite = true → suite.setup.result = CallResult.normal) →
      ((suite.teardown.id != do_nothing.id) = true →
        suite.teardown.result = CallResult.normal) →
      ∃ r₁, run_test_in_the_current_process cfg suite spec r = RunOutcome.ok r₁ ∧
        Event.showFail spec.filename spec.line (exception_message "test" e) ∈ r₁.events ∧
        ∀ rest, run_named_entries cfg spec.name suite (UnitTest.testItem spec :: rest) r
          = run_named_entries cfg spec.name suite rest r₁) ∧
    (∀ hk, (suite.teardown.id != do_nothing.id) = false →
      spec.context.teardown = some hk → hk.result = CallResult.throws e →
      (has_setup suite = true → suite.setup.result = CallResult.normal) →
      ∃ r₁, run_test_in_the_current_process cfg suite spec r = RunOutcome.ok r₁ ∧
        Event.showFail spec.filename spec.line (exception_message "teardown" e) ∈ r₁.events ∧
        ∀ rest, run_named_entries cfg spec.name suite (UnitTest.testItem spec :: rest) r
          = run_named_entries cfg spec.name suite rest r₁) := by
  refine ⟨?_, ?_, ?_⟩
  · intro hk hsu hcs hke htds
    have hcore : ∃ R, run_test_in_the_current_process cfg suite spec r = RunOutcome.ok R ∧
        Event.showFail spec.filename spec.line (exception_message "setup" e) ∈ R.events := by
      unfold run_test_in_the_current_process
      dsimp only
      unfold run_the_test_code
      dsimp only
      obtain ⟨r₀, d₀, ht0, he0⟩ := timeout_block_ok_extend cfg
        (emit (emit (emit r (Event.startTest spec.name)) (Event.significantFiguresSet 8))
          Event.clearMocksCalled) ht
      rw [ht0]
      dsimp only
      rw [show setup_block suite spec r₀
          = RunOutcome.ok
              (report_exception spec "setup" e (emit r₀ (Event.contextSetupCalled hk.id)))
          from by simp [setup_block, hsu, hcs, hke, run_setup_for]]
      dsimp only
      obtain ⟨d₂, hd₂⟩ := run_events_extend spec
        (report_exception spec "setup" e (emit r₀ (Event.contextSetupCalled hk.id)))
      obtain ⟨r₃, d₃, htb, he₃⟩ := teardown_block_extend suite spec
        (run spec (report_exception spec "setup" e (emit r₀ (Event.contextSetupCalled hk.id))))
        htds
      rw [htb]
      dsimp only
      refine ⟨_, rfl, ?_⟩
      have hre : (report_exception spec "setup" e
          (emit r₀ (Event.contextSetupCalled hk.id))).events
          = r₀.events ++ [Event.contextSetupCalled hk.id,
              Event.showFail spec.filename spec.line (exception_message "setup" e)] := by
        simp [report_exception, show_fail, emit]
      rw [show (emit (emit (emit r₃ Event.tallyMocksCalled) Event.completionNotification)
            (Event.finishTest spec.filename spec.line)).events
          = r₃.events ++ [Event.tallyMocksCalled, Event.completionNotification,
              Event.finishTest spec.filename spec.line] from by simp [emit],
          he₃, hd₂, hre]
      simp [List.mem_append]
    obtain ⟨R, hrun, hmem⟩ := hcore
    exact ⟨R, hrun, hmem, fun rest => by simp [run_named_entries, run_named_entry, hrun]⟩
  · intro hbody hss htds
    have hcore : ∃ R, run_test_in_the_current_process cfg suite spec r = RunOutcome.ok R ∧
        Event.showFail spec.filename spec.line (exception_message "test" e) ∈ R.events := by
      unfold run_test_in_the_current_process
      dsimp only
      unfold run_the_test_code
      dsimp only
      obtain ⟨r₀, d₀, ht0, he0⟩ := timeout_block_ok_extend cfg
        (emit (emit (emit r (Event.startTest spec.name)) (Event.significantFiguresSet 8))
          Event.clearMocksCalled) ht
      rw [ht0]
      dsimp only
      obtain ⟨rs, ds, hsb, hes⟩ := setup_block_extend suite spec r₀ hss
      rw [hsb]
      dsimp only
      obtain ⟨r₃, d₃, htb, he₃⟩ := teardown_block_extend suite spec (run spec rs) htds
      rw [htb]
      dsimp only
      refine ⟨_, rfl, ?_⟩
      have hbe : (run spec rs).events
          = rs.events ++ (Event.testBodyCalled spec.name ::
              ((spec.run.asserts.map fun a => Event.showFail a.filename a.line a.message) ++
               [Event.showFail spec.filename spec.line (exception_message "test" e)])) := by
        simp [run, hbody, emit, apply_asserts_events, report_exception, show_fail]
      rw [show (emit (emit (emit r₃ Event.tallyMocksCalled) Event.completionNotification)
            (Event.finishTest spec.filename spec.line)).events
          = r₃.events ++ [Event.tallyMocksCalled, Event.completionNotification,
              Event.finishTest spec.filename spec.line] from by simp [emit],
          he₃, hbe]
      simp [List.mem_append]
    obtain ⟨R, hrun, hmem⟩ := hcore
    exact ⟨R, hrun, hmem, fun rest => by simp [run_named_entries, run_named_entry, hrun]⟩
  · intro hk htd hctd hke hss
    have hcore : ∃ R, run_test_in_the_current_process cfg suite spec r = RunOutcome.ok R ∧
        Event.showFail spec.filename spec.line (exception_message "teardown" e) ∈ R.events := by
      unfold run_test_in_the_current_process
      dsimp only
      unfold run_the_test_code
      dsimp only
      obtain ⟨r₀, d₀, ht0, he0⟩ := timeout_block_ok_extend cfg
        (emit (emit (emit r (Event.startTest spec.name)) (Event.significantFiguresSet 8))
          Event.clearMocksCalled) ht
      rw [ht0]
      dsimp only
      obtain ⟨rs, ds, hsb, hes⟩ := setup_block_extend suite spec r₀ hss
      rw [hsb]
      dsimp only
      rw [show teardown_block suite spec (run spec rs)
          = RunOutcome.ok (report_exception spec "teardown" e
              (emit (run spec rs) (Event.contextTeardownCalled hk.id)))
          from by simp [teardown_block, htd, hctd, hke, run_teardown_for]]
      dsimp only
      refine ⟨_, rfl, ?_⟩
      simp [emit, report_exception, show_fail, List.mem_append]
    obtain ⟨R, hrun, hmem⟩ := hcore
    exact ⟨R, hrun, hmem, fun rest => by simp [run_named_entries, run_named_entry, hrun]⟩

/-- C2 witness: a test whose context setup throws an owned std::string, in a
hookless suite: the exception is caught, the formatted setup message is
reported at the location of the test, and a named run continues past it. -/
theorem exception_capture_witness :
    ∃ r₁, run_test_in_the_current_process noTimeoutConfig
        (TestSuite.mk "w" "w.c" 1 do_nothing do_nothing []) contextThrowTest freshReporter
        = RunOutcome.ok r₁ ∧
      Event.showFail contextThrowTest.filename contextThrowTest.line
          (exception_message "setup" (ExceptionShape.stringByRef "bang")) ∈ r₁.events ∧
      ∀ rest, run_named_entries noTimeoutConfig contextThrowTest.name
          (TestSuite.mk "w" "w.c" 1 do_nothing do_nothing [])
          (UnitTest.testItem contextThrowTest :: rest) freshReporter
        = run_named_entries noTimeoutConfig contextThrowTest.name
            (TestSuite.mk "w" "w.c" 1 do_nothing do_nothing []) rest r₁ :=
  (exception_capture_in_wrapped_phases noTimeoutConfig
      (TestSuite.mk "w" "w.c" 1 do_nothing do_nothing [])
      contextThrowTest freshReporter (ExceptionShape.stringByRef "bang")
      (fun t htx => by simp [noTimeoutConfig] at htx)).1
    ⟨5, CallResult.throws (ExceptionShape.stringByRef "bang")⟩ (by decide) rfl rfl
    (fun hx => absurd hx (by decide))

/-! Counter-tracking stage lemmas: stages whose hooks all return leave the
counters unchanged; a throwing wrapped phase adds one to each counter. -/

theorem timeout_block_quiet (cfg : Config) (r : TestReporter)
    (ht : ∀ t, cfg.timeout = some t → 0 < t) :
    ∃ r₁ d, timeout_block cfg r = RunOutcome.ok r₁ ∧ r₁.events = r.events ++ d ∧
      r₁.failures = r.failures ∧ r₁.exceptions = r.exceptions := by
  rcases hct : cfg.timeout with _ | t
  · exact ⟨r, [], timeout_block_none cfg r hct, by simp, rfl, rfl⟩
  · exact ⟨emit r (Event.dieInCalled t), [Event.dieInCalled t],
      timeout_block_pos cfg r t hct (ht t hct), by simp [emit], rfl, rfl⟩

theorem setup_block_quiet (suite : TestSuite) (spec : CgreenTest) (r : TestReporter)
    (hs : has_setup suite = true → suite.setup.result = CallResult.normal)
    (hq : ∀ hk, spec.context.setup = some hk → hk.result = CallResult.normal) :
    ∃ r₁ d, setup_block suite spec r = RunOutcome.ok r₁ ∧ r₁.events = r.events ++ d ∧
      r₁.failures = r.failures ∧ r₁.exceptions = r.exceptions := by
  unfold setup_block invoke_suite_setup run_setup_for
  rcases hsu : has_setup suite with _ | _
  · rcases hcs : spec.context.setup with _ | hk
    · exact ⟨r, [], by simp [hsu, hcs], by simp, rfl, rfl⟩
    · exact ⟨emit r (Event.contextSetupCalled hk.id), [Event.contextSetupCalled hk.id],
        by simp [hsu, hcs, hq hk hcs], by simp [emit], rfl, rfl⟩
  · exact ⟨emit r (Event.suiteSetupCalled suite.setup.id), [Event.suiteSetupCalled suite.setup.id],
      by simp [hsu, hs hsu], by simp [emit], rfl, rfl⟩

theorem teardown_block_quiet (suite : TestSuite) (spec : CgreenTest) (r : TestReporter)
    (hts : (suite.teardown.id != do_nothing.id) = true →
      suite.teardown.result = CallResult.normal)
    (hq : ∀ hk, spec.context.teardown = some hk → hk.result = CallResult.normal) :
    ∃ r₁ d, teardown_block suite spec r = RunOutcome.ok r₁ ∧ r₁.events = r.events ++ d ∧
      r₁.failures = r.failures ∧ r₁.exceptions = r.exceptions := by
  unfold teardown_block invoke_suite_teardown run_teardown_for
  rcases htd : (suite.teardown.id != do_nothing.id) with _ | _
  · rcases hctd : spec.context.teardown with _ | hk
    · exact ⟨r, [], by simp [htd, hctd], by simp, rfl, rfl⟩
    · exact ⟨emit r (Event.contextTeardownCalled hk.id), [Event.contextTeardownCalled hk.id],
        by simp [htd, hctd, hq hk hctd], by simp [emit], rfl, rfl⟩
  · exact ⟨emit r (Event.suiteTeardownCalled suite.teardown.id),
      [Event.suiteTeardownCalled suite.teardown.id],
      by simp [htd, hts htd], by simp [emit], rfl, rfl⟩

/-- A body with no failure reports that throws: exactly one new failure,
exactly one new exception, and the formatted report in the trace. -/
theorem run_throwing (spec : CgreenTest) (r : TestReporter) (e : ExceptionShape)
    (ha : spec.run.asserts = []) (hb : spec.run.result = CallResult.throws e) :
    (run spec r).failures = r.failures + 1 ∧
    (run spec r).exceptions = r.exceptions + 1 ∧
    (run spec r).events = r.events ++ [Event.testBodyCalled spec.name,
      Event.showFail spec.filename spec.line (exception_message "test" e)] := by
  refine ⟨?_, ?_, ?_⟩ <;>
    simp [run, ha, hb, emit, apply_asserts, report_exception, show_fail]

/-- A body with no failure reports that returns: counters unchanged. -/
theorem run_quiet (spec : CgreenTest) (r : TestReporter)
    (ha : spec.run.asserts = []) (hb : spec.run.result = CallResult.normal) :
    (run spec r).failures = r.failures ∧
    (run spec r).exceptions = r.exceptions ∧
    (run spec r).events = r.events ++ [Event.testBodyCalled spec.name] := by
  refine ⟨?_, ?_, ?_⟩ <;> simp [run, ha, hb, emit, apply_asserts]

theorem infix_of_take (l₁ l₂ rest : List Char) (h : l₁.length + l₂.length ≤ 253) :
    l₂ <:+: (l₁ ++ (l₂ ++ rest)).take 253 := by
  rw [List.take_append_eq_append_take, List.take_of_length_le (by omega),
      List.take_append_eq_append_take, List.take_of_length_le (by omega)]
  exact ⟨l₁, rest.take (253 - l₁.length - l₂.length), by simp⟩

/-- The phase label survives the snprintf truncation: it sits after the fixed
31-character prefix, well inside the 253 characters the buffer keeps. -/
theorem phase_in_message (phase : String) (e : ExceptionShape)
    (h : 31 + phase.data.length ≤ 253) :
    phase.data <:+: (exception_message phase e).data := by
  have hd : (exception_message phase e).data
      = ("an exception was thrown during ".data ++
          (phase.data ++ (": [".data ++ (e.detail.data ++ "]".data)))).take 253 := by
    simp [exception_message, truncateTo,
          show ∀ a b : String, (a ++ b).data = a.data ++ b.data from fun _ _ => rfl,
          List.append_assoc]
  rw [hd]
  refine infix_of_take _ _ _ ?_
  have h31 : ("an exception was thrown during ".data).length = 31 := by decide
  omega

/-- C7: a test whose one throwing phase is its body (or its context setup or
context teardown, with every other phase quiet) increments the failures
counter and the exceptions counter exactly once for that event, and the
reported message carries the literal phase label of the throwing phase, which
survives the buffer truncation. -/
theorem exception_counts_once_with_phase_label (cfg : Config) (suite : TestSuite)
    (spec : CgreenTest) (r : TestReporter) (e : ExceptionShape)
    (ht : ∀ t, cfg.timeout = some t → 0 < t) :
    (spec.run.asserts = [] → spec.run.result = CallResult.throws e →
      (has_setup suite = true → suite.setup.result = CallResult.normal) →
      (∀ hk, spec.context.setup = some hk → hk.result = CallResult.normal) →
      ((suite.teardown.id != do_nothing.id) = true →
        suite.teardown.result = CallResult.normal) →
      (∀ hk, spec.context.teardown = some hk → hk.result = CallResult.normal) →
      ∃ r₁, run_the_test_code cfg suite spec r = RunOutcome.ok r₁ ∧
        r₁.failures = r.failures + 1 ∧ r₁.exceptions = r.exceptions + 1 ∧
        Event.showFail spec.filename spec.line (exception_message "test" e) ∈ r₁.events ∧
        "test".data <:+: (exception_message "test" e).data) ∧
    (∀ hk, has_setup suite = false → spec.context.setup = some hk →
      hk.result = CallResult.throws e →
      spec.run.asserts = [] → spec.run.result = CallResult.normal →
      ((suite.teardown.id != do_nothing.id) = true →
        suite.teardown.result = CallResult.normal) →
      (∀ hk₂, spec.context.teardown = some hk₂ → hk₂.result = CallResult.normal) →
      ∃ r₁, run_the_test_code cfg suite spec r = RunOutcome.ok r₁ ∧
        r₁.failures = r.failures + 1 ∧ r₁.exceptions = r.exceptions + 1 ∧
        Event.showFail spec.filename spec.line (exception_message "setup" e) ∈ r₁.events ∧
        "setup".data <:+: (exception_message "setup" e).data) ∧
    (∀ hk, (suite.teardown.id != do_nothing.id) = false →
      spec.context.teardown = some hk → hk.result = CallResult.throws e →
      spec.run.asserts = [] → spec.run.result = CallResult.normal →
      (has_setup suite = true → suite.setup.result = CallResult.normal) →
      (∀ hk₂, spec.context.setup = some hk₂ → hk₂.result = CallResult.normal) →
      ∃ r₁, run_the_test_code cfg suite spec r = RunOutcome.ok r₁ ∧
        r₁.failures = r.failures + 1 ∧ r₁.exceptions = r.exceptions + 1 ∧
        Event.showFail spec.filename spec.line (exception_message "teardown" e) ∈ r₁.events ∧
        "teardown".data <:+: (exception_message "teardown" e).data) := by
  refine ⟨?_, ?_, ?_⟩
  · intro ha hb hss hcsq htds hctdq
    unfold run_the_test_code
    dsimp only
    obtain ⟨r₀, d₀, ht0, he0, hf0, hx0⟩ := timeout_block_quiet cfg
      (emit (emit r (Event.significantFiguresSet 8)) Event.clearMocksCalled) ht
    rw [ht0]
    dsimp only
    obtain ⟨rs, ds, hsb, hes, hfs, hxs⟩ := setup_block_quiet suite spec r₀ hss hcsq
    rw [hsb]
    dsimp only
    obtain ⟨hrf, hrx, hrev⟩ := run_throwing spec rs e ha hb
    obtain ⟨r₃, d₃, htb, he₃, hf₃, hx₃⟩ :=
      teardown_block_quiet suite spec (run spec rs) htds hctdq
    rw [htb]
    dsimp only
    refine ⟨_, rfl, ?_, ?_, ?_, phase_in_message "test" e (by decide)⟩
    · rw [show (emit r₃ Event.tallyMocksCalled).failures = r₃.failures from rfl,
          hf₃, hrf, hfs, hf0]
      simp [emit]
    · rw [show (emit r₃ Event.tallyMocksCalled).exceptions = r₃.exceptions from rfl,
          hx₃, hrx, hxs, hx0]
      simp [emit]
    · rw [show (emit r₃ Event.tallyMocksCalled).events = r₃.events ++ [Event.tallyMocksCalled]
          from by simp [emit], he₃, hrev]
      simp [List.mem_append]
  · intro hk hsu hcs hke ha hbn htds hctdq
    unfold run_the_test_code
    dsimp only
    obtain ⟨r₀, d₀, ht0, he0, hf0, hx0⟩ := timeout_block_quiet cfg
      (emit (emit r (Event.significantFiguresSet 8)) Event.clearMocksCalled) ht
    rw [ht0]
    dsimp only
    rw [show setup_block suite spec r₀
        = RunOutcome.ok
            (report_exception spec "setup" e (emit r₀ (Event.contextSetupCalled hk.id)))
        from by simp [setup_block, hsu, hcs, hke, run_setup_for]]
    dsimp only
    obtain ⟨hrf, hrx, hrev⟩ := run_quiet spec
      (report_exception spec "setup" e (emit r₀ (Event.contextSetupCalled hk.id))) ha hbn
    obtain ⟨r₃, d₃, htb, he₃, hf₃, hx₃⟩ := teardown_block_quiet suite spec
      (run spec (report_exception spec "setup" e (emit r₀ (Event.contextSetupCalled hk.id))))
      htds hctdq
    rw [htb]
    dsimp only
    have hXf : (report_exception spec "setup" e
        (emit r₀ (Event.contextSetupCalled hk.id))).failures = r₀.failures + 1 := by
      simp [report_exception, show_fail, emit]
    have hXx : (report_exception spec "setup" e
        (emit r₀ (Event.contextSetupCalled hk.id))).exceptions = r₀.exceptions + 1 := by
      simp [report_exception, show_fail, emit]
    have hXev : (report_exception spec "setup" e
        (emit r₀ (Event.contextSetupCalled hk.id))).events
        = r₀.events ++ [Event.contextSetupCalled hk.id,
            Event.showFail spec.filename spec.line (exception_message "setup" e)] := by
      simp [report_exception, show_fail, emit]
    refine ⟨_, rfl, ?_, ?_, ?_, phase_in_message "setup" e (by decide)⟩
    · rw [show (emit r₃ Event.tallyMocksCalled).failures = r₃.failures from rfl,
          hf₃, hrf, hXf, hf0]
      simp [emit]
    · rw [show (emit r₃ Event.tallyMocksCalled).exceptions = r₃.exceptions from rfl,
          hx₃, hrx, hXx, hx0]
      simp [emit]
    · rw [show (emit r₃ Event.tallyMocksCalled).events = r₃.events ++ [Event.tallyMocksCalled]
          from by simp [emit], he₃, hrev, hXev]
      simp [List.mem_append]
  · intro hk htd hctd hke ha hbn hss hcsq
    unfold run_the_test_code
    dsimp only
    obtain ⟨r₀, d₀, ht0, he0, hf0, hx0⟩ := timeout_block_quiet cfg
      (emit (emit r (Event.significantFiguresSet 8)) Event.clearMocksCalled) ht
    rw [ht0]
    dsimp only
    obtain ⟨rs, ds, hsb, hes, hfs, hxs⟩ := setup_block_quiet suite spec r₀ hss hcsq
    rw [hsb]
    dsimp only
    obtain ⟨hrf, hrx, hrev⟩ := run_quiet spec rs ha hbn
    rw [show teardown_block suite spec (run spec rs)
        = RunOutcome.ok (report_exception spec "teardown" e
            (emit (run spec rs) (Event.contextTeardownCalled hk.id)))
        from by simp [teardown_block, htd, hctd, hke, run_teardown_for]]
    dsimp only
    refine ⟨_, rfl, ?_, ?_, ?_, phase_in_message "teardown" e (by decide)⟩
    · rw [show (emit (report_exception spec "teardown" e
            (emit (run spec rs) (Event.contextTeardownCalled hk.id)))
            Event.tallyMocksCalled).failures = (run spec rs).failures + 1
          from by simp [emit, report_exception, show_fail], hrf, hfs, hf0]
      simp [emit]
    · rw [show (emit (report_exception spec "teardown" e
            (emit (run spec rs) (Event.contextTeardownCalled hk.id)))
            Event.tallyMocksCalled).exceptions = (run spec rs).exceptions + 1
          from by simp [emit, report_exception, show_fail], hrx, hxs, hx0]
      simp [emit]
    · simp [emit, report_exception, show_fail, List.mem_append]

/-- C7 witness: a hookless suite with a test whose body throws a C string:
counters go from 0 to 1 each, and the message carries the label test. -/
theorem exception_counts_once_witness :
    ∃ r₁, run_the_test_code noTimeoutConfig
        (TestSuite.mk "h" "h.c" 1 do_nothing do_nothing []) sampleThrowingTest freshReporter
        = RunOutcome.ok r₁ ∧
      r₁.failures = freshReporter.failures + 1 ∧
      r₁.exceptions = freshReporter.exceptions + 1 ∧
      Event.showFail sampleThrowingTest.filename sampleThrowingTest.line
          (exception_message "test" (ExceptionShape.cString "boom")) ∈ r₁.events ∧
      "test".data <:+: (exception_message "test" (ExceptionShape.cString "boom")).data :=
  (exception_counts_once_with_phase_label noTimeoutConfig
      (TestSuite.mk "h" "h.c" 1 do_nothing do_nothing [])
      sampleThrowingTest freshReporter (ExceptionShape.cString "boom")
      (fun t htx => by simp [noTimeoutConfig] at htx)).1
    rfl rfl (fun hx => absurd hx (by decide))
    (fun hk hx => by simp [sampleThrowingTest, nullContext] at hx)
    (fun hx => absurd hx (by decide))
    (fun hk hx => by simp [sampleThrowingTest, nullContext] at hx)

/-! Trace-extension lemmas: every piece of the engine only appends events. -/

theorem timeout_block_state_extend (cfg : Config) (r : TestReporter) :
    ∃ d, (timeout_block cfg r).state.events = r.events ++ d := by
  unfold timeout_block validate_per_test_timeout_value per_test_timeout_defined
  rcases hct : cfg.timeout with _ | t
  · exact ⟨[], by simp [RunOutcome.state]⟩
  · by_cases hle : t ≤ 0
    · exact ⟨[], by simp [hle, RunOutcome.state]⟩
    · exact ⟨[Event.dieInCalled (per_test_timeout_value cfg)], by
        simp [hle, RunOutcome.state, emit]⟩

theorem setup_block_state_extend (suite : TestSuite) (spec : CgreenTest) (r : TestReporter) :
    ∃ d, (setup_block suite spec r).state.events = r.events ++ d := by
  unfold setup_block invoke_suite_setup run_setup_for
  rcases hsu : has_setup suite with _ | _
  · rcases hcs : spec.context.setup with _ | hk
    · exact ⟨[], by simp [hsu, hcs, RunOutcome.state]⟩
    · rcases hkr : hk.result with _ | e
      · exact ⟨[Event.contextSetupCalled hk.id], by
          simp [hsu, hcs, hkr, RunOutcome.state, emit]⟩
      · exact ⟨[Event.contextSetupCalled hk.id,
          Event.showFail spec.filename spec.line (exception_message "setup" e)], by
          simp [hsu, hcs, hkr, RunOutcome.state, emit, report_exception, show_fail]⟩
  · rcases hsr : suite.setup.result with _ | e
    · exact ⟨[Event.suiteSetupCalled suite.setup.id], by
        simp [hsu, hsr, RunOutcome.state, emit]⟩
    · exact ⟨[Event.suiteSetupCalled suite.setup.id], by
        simp [hsu, hsr, RunOutcome.state, emit]⟩

theorem teardown_block_state_extend (suite : TestSuite) (spec : CgreenTest)
    (r : TestReporter) :
    ∃ d, (teardown_block suite spec r).state.events = r.events ++ d := by
  unfold teardown_block invoke_suite_teardown run_teardown_for
  rcases htd : (suite.teardown.id != do_nothing.id) with _ | _
  · rcases hctd : spec.context.teardown with _ | hk
    · exact ⟨[], by simp [htd, hctd, RunOutcome.state]⟩
    · rcases hkr : hk.result with _ | e
      · exact ⟨[Event.contextTeardownCalled hk.id], by
          simp [htd, hctd, hkr, RunOutcome.state, emit]⟩
      · exact ⟨[Event.contextTeardownCalled hk.id,
          Event.showFail spec.filename spec.line (exception_message "teardown" e)], by
          simp [htd, hctd, hkr, RunOutcome.state, emit, report_exception, show_fail]⟩
  · rcases htr : suite.teardown.result with _ | e
    · exact ⟨[Event.suiteTeardownCalled suite.teardown.id], by
        simp [htd, htr, RunOutcome.state, emit]⟩
    · exact ⟨[Event.suiteTeardownCalled suite.teardown.id], by
        simp [htd, htr, RunOutcome.state, emit]⟩

theorem run_the_test_code_state_extend (cfg : Config) (suite : TestSuite)
    (spec : CgreenTest) (r : TestReporter) :
    ∃ d, (run_the_test_code cfg suite spec r).state.events = r.events ++ d := by
  unfold run_the_test_code
  dsimp only
  obtain ⟨d₀, hd₀⟩ := timeout_block_state_extend cfg
    (emit (emit r (Event.significantFiguresSet 8)) Event.clearMocksCalled)
  rcases h0 : timeout_block cfg
      (emit (emit r (Event.significantFiguresSet 8)) Event.clearMocksCalled)
    with r₀ | ⟨m, r₀⟩ | ⟨e₀, r₀⟩ <;> rw [h0] at hd₀ <;> simp only [RunOutcome.state] at hd₀ ⊢
  · obtain ⟨d₁, hd₁⟩ := setup_block_state_extend suite spec r₀
    rcases h1 : setup_block suite spec r₀ with r₁ | ⟨m, r₁⟩ | ⟨e₁, r₁⟩ <;>
      rw [h1] at hd₁ <;> simp only [RunOutcome.state] at hd₁ ⊢
    · obtain ⟨d₂, hd₂⟩ := run_events_extend spec r₁
      obtain ⟨d₃, hd₃⟩ := teardown_block_state_extend suite spec (run spec r₁)
      rcases h3 : teardown_block suite spec (run spec r₁) with r₃ | ⟨m, r₃⟩ | ⟨e₃, r₃⟩ <;>
        rw [h3] at hd₃ <;> simp only [RunOutcome.state] at hd₃ ⊢
      · exact ⟨Event.significantFiguresSet 8 :: Event.clearMocksCalled ::
          (d₀ ++ (d₁ ++ (d₂ ++ (d₃ ++ [Event.tallyMocksCalled])))), by
          simp [emit, hd₃, hd₂, hd₁, hd₀]⟩
      · exact ⟨Event.significantFiguresSet 8 :: Event.clearMocksCalled ::
          (d₀ ++ (d₁ ++ (d₂ ++ d₃))), by simp [hd₃, hd₂, hd₁, hd₀, emit]⟩
      · exact ⟨Event.significantFiguresSet 8 :: Event.clearMocksCalled ::
          (d₀ ++ (d₁ ++ (d₂ ++ d₃))), by simp [hd₃, hd₂, hd₁, hd₀, emit]⟩
    · exact ⟨Event.significantFiguresSet 8 :: Event.clearMocksCalled :: (d₀ ++ d₁), by
        simp [hd₁, hd₀, emit]⟩
    · exact ⟨Event.significantFiguresSet 8 :: Event.clearMocksCalled :: (d₀ ++ d₁), by
        simp [hd₁, hd₀, emit]⟩
  · exact ⟨Event.significantFiguresSet 8 :: Event.clearMocksCalled :: d₀, by
      simp [hd₀, emit]⟩
  · exact ⟨Event.significantFiguresSet 8 :: Event.clearMocksCalled :: d₀, by
      simp [hd₀, emit]⟩

theorem run_test_in_the_current_process_state_extend (cfg : Config) (suite : TestSuite)
    (spec : CgreenTest) (r : TestReporter) :
    ∃ d, (run_test_in_the_current_process cfg suite spec r).state.events = r.events ++ d := by
  unfold run_test_in_the_current_process
  dsimp only
  obtain ⟨d₁, hd₁⟩ := run_the_test_code_state_extend cfg suite spec
    (emit r (Event.startTest spec.name))
  rcases h1 : run_the_test_code cfg suite spec (emit r (Event.startTest spec.name))
    with r₁ | ⟨m, r₁⟩ | ⟨e₁, r₁⟩ <;> rw [h1] at hd₁ <;> simp only [RunOutcome.state] at hd₁ ⊢
  · exact ⟨Event.startTest spec.name :: (d₁ ++
      [Event.completionNotification, Event.finishTest spec.filename spec.line]), by
      simp [emit, hd₁]⟩
  · exact ⟨Event.startTest spec.name :: d₁, by simp [emit, hd₁]⟩
  · exact ⟨Event.startTest spec.name :: d₁, by simp [emit, hd₁]⟩

mutual
theorem run_named_test_state_extend (cfg : Config) (name : String) :
    ∀ (s : TestSuite) (r : TestReporter),
      ∃ d, (run_named_test cfg name s r).state.events = r.events ++ d
  | .mk nm f l st td entries, r => by
    unfold run_named_test
    dsimp only
    obtain ⟨d₁, hd₁⟩ := run_named_entries_state_extend cfg name
      (TestSuite.mk nm f l st td entries) entries
      (emit r (Event.startSuite nm (count_tests (TestSuite.mk nm f l st td entries))))
    rcases h1 : run_named_entries cfg name (TestSuite.mk nm f l st td entries) entries
        (emit r (Event.startSuite nm (count_tests (TestSuite.mk nm f l st td entries))))
      with r₁ | ⟨m, r₁⟩ | ⟨e₁, r₁⟩ <;> rw [h1] at hd₁ <;>
        simp only [RunOutcome.state] at hd₁ ⊢
    · exact ⟨Event.startSuite nm (count_tests (TestSuite.mk nm f l st td entries)) ::
        (d₁ ++ [Event.completionNotification, Event.finishSuite f l]), by simp [emit, hd₁]⟩
    · exact ⟨Event.startSuite nm (count_tests (TestSuite.mk nm f l st td entries)) :: d₁, by
        simp [emit, hd₁]⟩
    · exact ⟨Event.startSuite nm (count_tests (TestSuite.mk nm f l st td entries)) :: d₁, by
        simp [emit, hd₁]⟩

theorem run_named_entries_state_extend (cfg : Config) (name : String) (suite : TestSuite) :
    ∀ (es : List UnitTest) (r : TestReporter),
      ∃ d, (run_named_entries cfg name suite es r).state.events = r.events ++ d
  | [], r => ⟨[], by simp [run_named_entries, RunOutcome.state]⟩
  | u :: rest, r => by
    unfold run_named_entries
    obtain ⟨d₁, hd₁⟩ := run_named_entry_state_extend cfg name suite u r
    rcases h1 : run_named_entry cfg name suite u r with r₁ | ⟨m, r₁⟩ | ⟨e₁, r₁⟩ <;>
      rw [h1] at hd₁ <;> simp only [RunOutcome.state] at hd₁
    · obtain ⟨d₂, hd₂⟩ := run_named_entries_state_extend cfg name suite rest r₁
      exact ⟨d₁ ++ d₂, by simp [hd₂, hd₁]⟩
    · exact ⟨d₁, hd₁⟩
    · exact ⟨d₁, hd₁⟩

theorem run_named_entry_state_extend (cfg : Config) (name : String) (suite : TestSuite) :
    ∀ (u : UnitTest) (r : TestReporter),
      ∃ d, (run_named_entry cfg name suite u r).state.events = r.events ++ d
  | .testItem t, r => by
    unfold run_named_entry
    by_cases hn : (t.name == name) = true
    · simp only [hn, if_true]
      exact run_test_in_the_current_process_state_extend cfg suite t r
    · simp only [hn]
      exact ⟨[], by simp [RunOutcome.state]⟩
  | .suiteItem child, r => by
    unfold run_named_entry
    by_cases hh : has_test child name = true
    · simp only [hh, if_true]
      unfold invoke_suite_setup
      rcases hsr : suite.setup.result with _ | e
      · dsimp only
        obtain ⟨d₁, hd₁⟩ := run_named_test_state_extend cfg name child
          (emit r (Event.suiteSetupCalled suite.setup.id))
        rcases h1 : run_named_test cfg name child (emit r (Event.suiteSetupCalled suite.setup.id))
          with r₁ | ⟨m, r₁⟩ | ⟨e₁, r₁⟩ <;> rw [h1] at hd₁ <;>
            simp only [RunOutcome.state] at hd₁
        · unfold invoke_suite_teardown
          rcases htr : suite.teardown.result with _ | e₂ <;>
            exact ⟨Event.suiteSetupCalled suite.setup.id :: (d₁ ++
              [Event.suiteTeardownCalled suite.teardown.id]), by
              simp [emit, hd₁, RunOutcome.state]⟩
        · exact ⟨Event.suiteSetupCalled suite.setup.id :: d₁, by
            simp [emit, hd₁, RunOutcome.state]⟩
        · exact ⟨Event.suiteSetupCalled suite.setup.id :: d₁, by
            simp [emit, hd₁, RunOutcome.state]⟩
      · exact ⟨[Event.suiteSetupCalled suite.setup.id], by
          simp [emit, RunOutcome.state]⟩
    · simp only [hh]
      exact ⟨[], by simp [RunOutcome.state]⟩
end

mutual
/-- has_test answers exactly whether the target name occurs among the leaf
test names of the subtree. -/
theorem has_test_iff_names : ∀ (s : TestSuite) (n : String),
    has_test s n = true ↔ n ∈ testNames s
  | .mk nm f l st td entries, n => by
    simp only [has_test, testNames]
    exact has_test_in_iff_names entries n

theorem has_test_in_iff_names : ∀ (es : List UnitTest) (n : String),
    has_test_in es n = true ↔ n ∈ testNamesIn es
  | [], n => by simp [has_test_in, testNamesIn]
  | .testItem t :: rest, n => by
    simp only [has_test_in, testNamesIn, Bool.or_eq_true, beq_iff_eq, List.mem_cons,
               has_test_in_iff_names rest n]
    exact or_congr ⟨fun h => h.symm, fun h => h.symm⟩ Iff.rfl
  | .suiteItem s :: rest, n => by
    simp only [has_test_in, testNamesIn, Bool.or_eq_true, List.mem_append,
               has_test_iff_names s n, has_test_in_iff_names rest n]
end

/-- Entering a suite in a named run first emits its start_suite callback. -/
theorem run_named_test_state_events (cfg : Config) (name : String) (s : TestSuite)
    (r : TestReporter) :
    ∃ d, (run_named_test cfg name s r).state.events
      = r.events ++ Event.startSuite s.name (count_tests s) :: d := by
  rcases s with ⟨nm, f, l, st, td, entries⟩
  unfold run_named_test
  dsimp only
  obtain ⟨d₁, hd₁⟩ := run_named_entries_state_extend cfg name
    (TestSuite.mk nm f l st td entries) entries
    (emit r (Event.startSuite nm (count_tests (TestSuite.mk nm f l st td entries))))
  rcases h1 : run_named_entries cfg name (TestSuite.mk nm f l st td entries) entries
      (emit r (Event.startSuite nm (count_tests (TestSuite.mk nm f l st td entries))))
    with r₁ | ⟨m, r₁⟩ | ⟨e₁, r₁⟩ <;> rw [h1] at hd₁ <;>
      simp only [RunOutcome.state] at hd₁
  · exact ⟨d₁ ++ [Event.completionNotification, Event.finishSuite f l], by
      simp [emit, hd₁, RunOutcome.state, TestSuite.name]⟩
  · exact ⟨d₁, by simp [emit, hd₁, RunOutcome.state, TestSuite.name]⟩
  · exact ⟨d₁, by simp [emit, hd₁, RunOutcome.state, TestSuite.name]⟩

/-- C4: in a named run, a nested suite entry is entered — the setup of the
enclosing suite invoked, the child suite started, and on normal completion
the teardown of the enclosing suite invoked last — exactly when has_test
finds the target name in the subtree of the child, which happens exactly when
the name is among the leaf test names of that subtree; when the subtree has
no match the entry leaves the reporter state completely untouched, so neither
hook of the enclosing suite is invoked. -/
theorem named_run_enters_iff_subtree_match (cfg : Config) (name : String)
    (suite child : TestSuite) (r : TestReporter) :
    (has_test child name = true ↔ name ∈ testNames child) ∧
    (has_test child name = false →
      run_named_entry cfg name suite (UnitTest.suiteItem child) r = RunOutcome.ok r) ∧
    (has_test child name = true → suite.setup.result = CallResult.normal →
      ∃ d, (run_named_entry cfg name suite (UnitTest.suiteItem child) r).state.events
        = r.events ++ Event.suiteSetupCalled suite.setup.id ::
            Event.startSuite child.name (count_tests child) :: d) ∧
    (has_test child name = true →
      ∀ r₂, run_named_entry cfg name suite (UnitTest.suiteItem child) r = RunOutcome.ok r₂ →
        ∃ d, r₂.events = r.events ++ Event.suiteSetupCalled suite.setup.id ::
            (d ++ [Event.suiteTeardownCalled suite.teardown.id])) := by
  refine ⟨has_test_iff_names child name, ?_, ?_, ?_⟩
  · intro h
    simp [run_named_entry, h]
  · intro h hsr
    unfold run_named_entry invoke_suite_setup
    simp only [h, if_true, hsr]
    obtain ⟨d₁, hd₁⟩ := run_named_test_state_events cfg name child
      (emit r (Event.suiteSetupCalled suite.setup.id))
    rcases h1 : run_named_test cfg name child (emit r (Event.suiteSetupCalled suite.setup.id))
      with r₁ | ⟨m, r₁⟩ | ⟨e₁, r₁⟩ <;> rw [h1] at hd₁ <;>
        simp only [RunOutcome.state] at hd₁
    · unfold invoke_suite_teardown
      rcases htr : suite.teardown.result with _ | e₂
      · exact ⟨d₁ ++ [Event.suiteTeardownCalled suite.teardown.id], by
          simp [emit, hd₁, RunOutcome.state]⟩
      · exact ⟨d₁ ++ [Event.suiteTeardownCalled suite.teardown.id], by
          simp [emit, hd₁, RunOutcome.state]⟩
    · exact ⟨d₁, by simp [emit, hd₁, RunOutcome.state]⟩
    · exact ⟨d₁, by simp [emit, hd₁, RunOutcome.state]⟩
  · intro h r₂
    unfold run_named_entry invoke_suite_setup
    simp only [h, if_true]
    rcases hsr : suite.setup.result with _ | e₀
    · dsimp only
      obtain ⟨d₁, hd₁⟩ := run_named_test_state_events cfg name child
        (emit r (Event.suiteSetupCalled suite.setup.id))
      rcases h1 : run_named_test cfg name child (emit r (Event.suiteSetupCalled suite.setup.id))
        with r₁ | ⟨m, r₁⟩ | ⟨e₁, r₁⟩ <;> rw [h1] at hd₁ <;>
          simp only [RunOutcome.state] at hd₁
      · unfold invoke_suite_teardown
        rcases htr : suite.teardown.result with _ | e₂
        · intro heq
          rcases heq with ⟨⟩
          exact ⟨Event.startSuite child.name (count_tests child) :: d₁, by
            simp [emit, hd₁]⟩
        · intro heq
          exact absurd heq (by simp)
      · intro heq
        exact absurd heq (by simp)
      · intro heq
        exact absurd heq (by simp)
    · intro heq
      exact absurd heq (by simp)

/-- C4 witness: the inner sample suite holds the test beta, so with target
beta it is entered with the hooks of the enclosing suite around it, and with
target zeta (absent from the subtree) the entry is a complete no-op. -/
theorem named_run_enters_iff_witness :
    (has_test sampleInnerSuite "beta" = true ↔ "beta" ∈ testNames sampleInnerSuite) ∧
    run_named_entry noTimeoutConfig "zeta" sampleSuite (UnitTest.suiteItem sampleInnerSuite)
      freshReporter = RunOutcome.ok freshReporter ∧
    (∃ d, (run_named_entry noTimeoutConfig "beta" sampleSuite
        (UnitTest.suiteItem sampleInnerSuite) freshReporter).state.events
      = freshReporter.events ++
          Event.suiteSetupCalled (TestSuite.setup sampleSuite).id ::
            Event.startSuite sampleInnerSuite.name (count_tests sampleInnerSuite) :: d) ∧
    (∃ d, ((run_named_entry noTimeoutConfig "beta" sampleSuite
        (UnitTest.suiteItem sampleInnerSuite) freshReporter).state).events
      = freshReporter.events ++ Event.suiteSetupCalled (TestSuite.setup sampleSuite).id ::
          (d ++ [Event.suiteTeardownCalled (TestSuite.teardown sampleSuite).id])) :=
  ⟨(named_run_enters_iff_subtree_match noTimeoutConfig "beta" sampleSuite sampleInnerSuite
      freshReporter).1,
   (named_run_enters_iff_subtree_match noTimeoutConfig "zeta" sampleSuite sampleInnerSuite
      freshReporter).2.1 (by decide),
   (named_run_enters_iff_subtree_match noTimeoutConfig "beta" sampleSuite sampleInnerSuite
      freshReporter).2.2.1 (by decide) rfl,
   (named_run_enters_iff_subtree_match noTimeoutConfig "beta" sampleSuite sampleInnerSuite
      freshReporter).2.2.2 (by decide)
     ((run_named_entry noTimeoutConfig "beta" sampleSuite
        (UnitTest.suiteItem sampleInnerSuite) freshReporter).state) (by decide)⟩

/-! Generic filter-preservation through the per-test sequence, used to show a
named run reports one start_test and one finish_test per executed test. -/

theorem timeout_block_ok_filter (cfg : Config) (r : TestReporter) (p : Event → Bool)
    (ht : ∀ t, cfg.timeout = some t → 0 < t)
    (hp : ∀ t, p (Event.dieInCalled t) = false) :
    ∃ r₁, timeout_block cfg r = RunOutcome.ok r₁ ∧
      r₁.events.filter p = r.events.filter p := by
  rcases hct : cfg.timeout with _ | t
  · exact ⟨r, timeout_block_none cfg r hct, rfl⟩
  · exact ⟨emit r (Event.dieInCalled t), timeout_block_pos cfg r t hct (ht t hct), by
      simp [emit, List.filter_append, hp]⟩

theorem setup_block_ok_filter (suite : TestSuite) (spec : CgreenTest) (r : TestReporter)
    (p : Event → Bool)
    (hss : has_setup suite = true → suite.setup.result = CallResult.normal)
    (hp4 : ∀ i, p (Event.suiteSetupCalled i) = false)
    (hp5 : ∀ i, p (Event.contextSetupCalled i) = false)
    (hp6 : ∀ f ln m, p (Event.showFail f ln m) = false) :
    ∃ r₁, setup_block suite spec r = RunOutcome.ok r₁ ∧
      r₁.events.filter p = r.events.filter p := by
  unfold setup_block invoke_suite_setup run_setup_for
  rcases hsu : has_setup suite with _ | _
  · rcases hcs : spec.context.setup with _ | hk
    · exact ⟨r, by simp [hsu, hcs], rfl⟩
    · rcases hkr : hk.result with _ | e
      · exact ⟨emit r (Event.contextSetupCalled hk.id), by simp [hsu, hcs, hkr], by
          simp [emit, List.filter_append, hp5]⟩
      · exact ⟨report_exception spec "setup" e (emit r (Event.contextSetupCalled hk.id)),
          by simp [hsu, hcs, hkr], by
          simp [emit, report_exception, show_fail, List.filter_append, hp5, hp6]⟩
  · exact ⟨emit r (Event.suiteSetupCalled suite.setup.id), by simp [hsu, hss hsu], by
      simp [emit, List.filter_append, hp4]⟩

theorem teardown_block_ok_filter (suite : TestSuite) (spec : CgreenTest) (r : TestReporter)
    (p : Event → Bool)
    (htds : (suite.teardown.id != do_nothing.id) = true →
      suite.teardown.result = CallResult.normal)
    (hp8 : ∀ i, p (Event.suiteTeardownCalled i) = false)
    (hp9 : ∀ i, p (Event.contextTeardownCalled i) = false)
    (hp6 : ∀ f ln m, p (Event.showFail f ln m) = false) :
    ∃ r₁, teardown_block suite spec r = RunOutcome.ok r₁ ∧
      r₁.events.filter p = r.events.filter p := by
  unfold teardown_block invoke_suite_teardown run_teardown_for
  rcases htd : (suite.teardown.id != do_nothing.id) with _ | _
  · rcases hctd : spec.context.teardown with _ | hk
    · exact ⟨r, by simp [htd, hctd], rfl⟩
    · rcases hkr : hk.result with _ | e
      · exact ⟨emit r (Event.contextTeardownCalled hk.id), by simp [htd, hctd, hkr], by
          simp [emit, List.filter_append, hp9]⟩
      · exact ⟨report_exception spec "teardown" e (emit r (Event.contextTeardownCalled hk.id)),
          by simp [htd, hctd, hkr], by
          simp [emit, report_exception, show_fail, List.filter_append, hp9, hp6]⟩
  · exact ⟨emit r (Event.suiteTeardownCalled suite.teardown.id), by simp [htd, htds htd], by
      simp [emit, List.filter_append, hp8]⟩

theorem run_the_test_code_ok_filter (cfg : Config) (suite : TestSuite) (spec : CgreenTest)
    (r : TestReporter) (p : Event → Bool)
    (ht : ∀ t, cfg.timeout = some t → 0 < t)
    (hss : has_setup suite = true → suite.setup.result = CallResult.normal)
    (htds : (suite.teardown.id != do_nothing.id) = true →
      suite.teardown.result = CallResult.normal)
    (hp1 : p (Event.significantFiguresSet 8) = false)
    (hp2 : p Event.clearMocksCalled = false)
    (hp3 : ∀ t, p (Event.dieInCalled t) = false)
    (hp4 : ∀ i, p (Event.suiteSetupCalled i) = false)
    (hp5 : ∀ i, p (Event.contextSetupCalled i) = false)
    (hp6 : ∀ f ln m, p (Event.showFail f ln m) = false)
    (hp7 : ∀ n, p (Event.testBodyCalled n) = false)
    (hp8 : ∀ i, p (Event.suiteTeardownCalled i) = false)
    (hp9 : ∀ i, p (Event.contextTeardownCalled i) = false)
    (hp10 : p Event.tallyMocksCalled = false) :
    ∃ r₁, run_the_test_code cfg suite spec r = RunOutcome.ok r₁ ∧
      r₁.events.filter p = r.events.filter p := by
  unfold run_the_test_code
  dsimp only
  obtain ⟨r₀, ht0, hf0⟩ := timeout_block_ok_filter cfg
    (emit (emit r (Event.significantFiguresSet 8)) Event.clearMocksCalled) p ht hp3
  rw [ht0]
  dsimp only
  obtain ⟨rs, hsb, hfs⟩ := setup_block_ok_filter suite spec r₀ p hss hp4 hp5 hp6
  rw [hsb]
  dsimp only
  obtain ⟨r₃, htb, hf₃⟩ := teardown_block_ok_filter suite spec (run spec rs) p htds
    hp8 hp9 hp6
  rw [htb]
  dsimp only
  refine ⟨_, rfl, ?_⟩
  rw [show (emit r₃ Event.tallyMocksCalled).events = r₃.events ++ [Event.tallyMocksCalled]
        from by simp [emit],
      List.filter_append, hf₃, run_events_filter p hp7 hp6, hfs, hf0]
  simp [emit, List.filter_append, hp1, hp2, hp10]

/-- Running one test in the current process under returning suite hooks:
normal completion, one new start_test event and one new finish_test event. -/
theorem current_process_reports_one_test (cfg : Config) (suite : TestSuite)
    (spec : CgreenTest) (r : TestReporter)
    (ht : ∀ t, cfg.timeout = some t → 0 < t)
    (hss : has_setup suite = true → suite.setup.result = CallResult.normal)
    (htds : (suite.teardown.id != do_nothing.id) = true →
      suite.teardown.result = CallResult.normal) :
    ∃ r₁, run_test_in_the_current_process cfg suite spec r = RunOutcome.ok r₁ ∧
      r₁.events.filter Event.isStartTest
        = r.events.filter Event.isStartTest ++ [Event.startTest spec.name] ∧
      r₁.events.filter Event.isFinishTest
        = r.events.filter Event.isFinishTest ++
            [Event.finishTest spec.filename spec.line] := by
  unfold run_test_in_the_current_process
  dsimp only
  obtain ⟨r₁, hok, hfS⟩ := run_the_test_code_ok_filter cfg suite spec
    (emit r (Event.startTest spec.name)) Event.isStartTest ht hss htds
    rfl rfl (fun _ => rfl) (fun _ => rfl) (fun _ => rfl) (fun _ _ _ => rfl)
    (fun _ => rfl) (fun _ => rfl) (fun _ => rfl) rfl
  obtain ⟨r₂, hok₂, hfF⟩ := run_the_test_code_ok_filter cfg suite spec
    (emit r (Event.startTest spec.name)) Event.isFinishTest ht hss htds
    rfl rfl (fun _ => rfl) (fun _ => rfl) (fun _ => rfl) (fun _ _ _ => rfl)
    (fun _ => rfl) (fun _ => rfl) (fun _ => rfl) rfl
  have hsame : r₂ = r₁ := by
    have := hok.symm.trans hok₂
    exact (RunOutcome.ok.injEq r₁ r₂).mp this |>.symm ▸ rfl
  subst hsame
  rw [hok]
  dsimp only
  refine ⟨_, rfl, ?_, ?_⟩
  · rw [show (emit (emit r₂ Event.completionNotification)
          (Event.finishTest spec.filename spec.line)).events
        = r₂.events ++ [Event.completionNotification,
            Event.finishTest spec.filename spec.line] from by simp [emit],
        List.filter_append, hfS]
    simp [emit, List.filter_append, Event.isStartTest]
  · rw [show (emit (emit r₂ Event.completionNotification)
          (Event.finishTest spec.filename spec.line)).events
        = r₂.events ++ [Event.completionNotification,
            Event.finishTest spec.filename spec.line] from by simp [emit],
        List.filter_append, hfF]
    simp [emit, List.filter_append, Event.isFinishTest]

/-- The named-run loop over a row of leaf tests does not stop at a hit: every
entry is examined and every entry whose name matches is executed and reported,
in declared order. -/
theorem named_entries_run_every_match (cfg : Config) (name : String) (suite : TestSuite)
    (ht : ∀ t, cfg.timeout = some t → 0 < t)
    (hss : has_setup suite = true → suite.setup.result = CallResult.normal)
    (htds : (suite.teardown.id != do_nothing.id) = true →
      suite.teardown.result = CallResult.normal) :
    ∀ (tests : List CgreenTest) (r : TestReporter),
      ∃ r₁, run_named_entries cfg name suite (tests.map UnitTest.testItem) r
          = RunOutcome.ok r₁ ∧
        r₁.events.filter Event.isStartTest
          = r.events.filter Event.isStartTest ++
              (tests.filter (fun x => x.name == name)).map (fun x => Event.startTest x.name) ∧
        r₁.events.filter Event.isFinishTest
          = r.events.filter Event.isFinishTest ++
              (tests.filter (fun x => x.name == name)).map
                (fun x => Event.finishTest x.filename x.line)
  | [], r => ⟨r, by simp [run_named_entries], by simp, by simp⟩
  | x :: xs, r => by
    simp only [List.map_cons]
    unfold run_named_entries run_named_entry
    by_cases hn : (x.name == name) = true
    · simp only [hn, if_true]
      obtain ⟨r₂, hok, hfS, hfF⟩ :=
        current_process_reports_one_test cfg suite x r ht hss htds
      rw [hok]
      dsimp only
      obtain ⟨r₁, hok₂, hS₂, hF₂⟩ := named_entries_run_every_match cfg name suite
        ht hss htds xs r₂
      refine ⟨r₁, hok₂, ?_, ?_⟩
      · rw [hS₂, hfS]
        simp [List.filter_cons, hn]
      · rw [hF₂, hfF]
        simp [List.filter_cons, hn]
    · rw [if_neg hn]
      dsimp only
      obtain ⟨r₁, hok₂, hS₂, hF₂⟩ := named_entries_run_every_match cfg name suite
        ht hss htds xs r
      refine ⟨r₁, hok₂, ?_, ?_⟩
      · rw [hS₂]
        simp [List.filter_cons, hn]
      · rw [hF₂]
        simp [List.filter_cons, hn]

/-- C10: in a named run over a suite of leaf tests, matching does not stop at
the first hit: every test whose name equals the target runs, in declared
order, each reported with its own start_test and finish_test. -/
theorem named_run_executes_every_duplicate (cfg : Config) (name sname sfile : String)
    (sline : Nat) (st td : Hook) (tests : List CgreenTest) (r : TestReporter)
    (ht : ∀ t, cfg.timeout = some t → 0 < t)
    (hst : st.result = CallResult.normal) (htd : td.result = CallResult.normal) :
    ∃ r₁, run_named_test cfg name
        (TestSuite.mk sname sfile sline st td (tests.map UnitTest.testItem)) r
        = RunOutcome.ok r₁ ∧
      r₁.events.filter Event.isStartTest
        = r.events.filter Event.isStartTest ++
            (tests.filter (fun x => x.name == name)).map (fun x => Event.startTest x.name) ∧
      r₁.events.filter Event.isFinishTest
        = r.events.filter Event.isFinishTest ++
            (tests.filter (fun x => x.name == name)).map
              (fun x => Event.finishTest x.filename x.line) := by
  unfold run_named_test
  dsimp only
  obtain ⟨r₁, hok, hS, hF⟩ := named_entries_run_every_match cfg name
    (TestSuite.mk sname sfile sline st td (tests.map UnitTest.testItem))
    ht (fun _ => hst) (fun _ => htd) tests
    (emit r (Event.startSuite sname
      (count_tests (TestSuite.mk sname sfile sline st td (tests.map UnitTest.testItem)))))
  rw [hok]
  dsimp only
  refine ⟨_, rfl, ?_, ?_⟩
  · rw [show (emit (emit r₁ Event.completionNotification) (Event.finishSuite sfile sline)).events
        = r₁.events ++ [Event.completionNotification, Event.finishSuite sfile sline]
        from by simp [emit],
        List.filter_append, hS]
    simp [emit, List.filter_append, Event.isStartTest]
  · rw [show (emit (emit r₁ Event.completionNotification) (Event.finishSuite sfile sline)).events
        = r₁.events ++ [Event.completionNotification, Event.finishSuite sfile sline]
        from by simp [emit],
        List.filter_append, hF]
    simp [emit, List.filter_append, Event.isFinishTest]

/-- C10 witness: two tests both named alpha in one suite: both run, in order,
each with its own start_test and finish_test report. -/
theorem named_run_executes_every_duplicate_witness :
    ∃ r₁, run_named_test noTimeoutConfig "alpha"
        (TestSuite.mk "dup" "d.c" 1 do_nothing do_nothing
          ([sampleTest, sampleTwin].map UnitTest.testItem)) freshReporter
        = RunOutcome.ok r₁ ∧
      r₁.events.filter Event.isStartTest
        = freshReporter.events.filter Event.isStartTest ++
            (([sampleTest, sampleTwin].filter (fun x => x.name == "alpha")).map
              (fun x => Event.startTest x.name)) ∧
      r₁.events.filter Event.isFinishTest
        = freshReporter.events.filter Event.isFinishTest ++
            (([sampleTest, sampleTwin].filter (fun x => x.name == "alpha")).map
              (fun x => Event.finishTest x.filename x.line)) :=
  named_run_executes_every_duplicate noTimeoutConfig "alpha" "dup" "d.c" 1
    do_nothing do_nothing [sampleTest, sampleTwin] freshReporter
    (fun t htx => by simp [noTimeoutConfig] at htx) rfl rfl

/-- C8: the breadcrumb stack laws of the test suite: current of a fresh
breadcrumb is the empty sentinel; after pushing Hello it is Hello; after
pushing Hello then Goodbye it is Goodbye; popping once goes back to Hello;
one push then one pop returns to empty; walking an empty breadcrumb invokes
the visitor zero times, and walking a breadcrumb holding exactly Hello
invokes the visitor exactly once, with Hello. -/
theorem breadcrumb_stack_laws :
    get_current_from_breadcrumb create_breadcrumb = none ∧
    get_current_from_breadcrumb (push_breadcrumb create_breadcrumb "Hello") = some "Hello" ∧
    get_current_from_breadcrumb
      (push_breadcrumb (push_breadcrumb create_breadcrumb "Hello") "Goodbye") =
        some "Goodbye" ∧
    get_current_from_breadcrumb
      (pop_breadcrumb (push_breadcrumb (push_breadcrumb create_breadcrumb "Hello") "Goodbye")) =
        some "Hello" ∧
    get_current_from_breadcrumb (pop_breadcrumb (push_breadcrumb create_breadcrumb "Hello")) =
      none ∧
    (∀ (α : Type) (visitor : String → α → α) (memo : α),
      walk_breadcrumb create_breadcrumb visitor memo = memo) ∧
    (∀ (α : Type) (visitor : String → α → α) (memo : α),
      walk_breadcrumb (push_breadcrumb create_breadcrumb "Hello") visitor memo =
        visitor "Hello" memo) :=
  ⟨rfl, rfl, rfl, rfl, rfl, fun _ _ _ => rfl, fun _ _ _ => rfl⟩

end Cgreen
